import Mathlib

/-
  Verification of the terra-incognita procedural planet generator
  (crates/terra-core) against its natural-language specification.

  Shallow embedding conventions:
  * Rust f32/f64 arithmetic is modelled exactly over the rationals; IEEE
    rounding is ignored, so equalities proved here hold up to floating-point
    precision in the implementation (which is what the spec tolerances ask).
  * The transcendental f64 primitives (sqrt, tan-of-degrees, cos-of-degrees)
    have no exact rational counterpart; the embedding is parametric in them
    (structure FloatPrims).  Every theorem quantifying over a FloatPrims value
    therefore holds in particular for the IEEE interpretation.  The two
    claims whose truth depends on properties of powf (seasonality and
    hypsometric shaping) are modelled over the reals with Real.rpow instead.
  * Rust panics (usize underflow, out-of-bounds indexing) are modelled with
    the Except monad where a claim depends on abort behaviour.
  * Row-major rasters are Lists of rationals; Vec indexing that is provably
    in bounds at every call site is modelled with getD.
  * A possibly-NaN f32 result is modelled as Option ℚ with none for NaN.

  File layout: all definitions (the embedding) first, then the helper
  lemmas and the claim theorems.
-/

namespace Terra

-- ════════════════════════════════════════════════════════════════════════
-- DEFINITIONS
-- ════════════════════════════════════════════════════════════════════════

/-- Abort conditions of the Rust code that are relevant to the claims:
usize subtraction overflow (debug profile) which in release profile surfaces
as an out-of-bounds index panic at the same site. -/
inductive Panic where
  | usizeUnderflow : Panic
deriving DecidableEq, Repr

/-- Rust usize subtraction.  In a debug build a - b with a < b panics with
an arithmetic overflow; in a release build it wraps, after which the first
use of the wrapped value as a loop bound makes the loop body index out of
bounds and panic.  Either way the function aborts, which the error models. -/
def usizeSub (a b : ℕ) : Except Panic ℕ :=
  if a < b then Except.error Panic.usizeUnderflow else Except.ok (a - b)

/-- Transcendental f64 primitives used by the code, left abstract (they have
no exact rational value).  sqrt models f64::sqrt, tanDeg models
x.to_radians().tan(), cosDeg models x.to_radians().cos(). -/
structure FloatPrims where
  sqrt : ℚ → ℚ
  tanDeg : ℚ → ℚ
  cosDeg : ℚ → ℚ

/-- A trivial interpretation of the abstract primitives, used to instantiate
universally quantified theorems at concrete inputs. -/
def prims0 : FloatPrims := ⟨fun _ => 0, fun _ => 1, fun _ => 1⟩

/-- The f64 constant std::f64::consts::SQRT_2 (exact rational value of the
IEEE double nearest to the square root of two). -/
def sqrt2f64 : ℚ := 6369051672525773 / 4503599627370496

/-- Rust clamp(lo, hi) (lo ≤ hi holds at every call site). -/
def clampQ (x lo hi : ℚ) : ℚ := max lo (min x hi)

/-- HeightField (heightfield.rs): row-major elevation data in metres plus
geographic bounds. -/
structure HeightField where
  data : List ℚ
  width : ℕ
  height : ℕ
  min_lon : ℚ
  max_lon : ℚ
  min_lat : ℚ
  max_lat : ℚ
deriving DecidableEq, Repr

namespace HeightField

/-- HeightField::get (in-bounds at every modelled call site). -/
def get (hf : HeightField) (r c : ℕ) : ℚ := hf.data.getD (r * hf.width + c) 0

/-- HeightField::set. -/
def set (hf : HeightField) (r c : ℕ) (v : ℚ) : HeightField :=
  { hf with data := hf.data.set (r * hf.width + c) v }

end HeightField

/-- Fold computing the minimum of a list (HeightField::min_elevation); the
f32::INFINITY initial accumulator is modelled by none. -/
def minElev (l : List ℚ) : Option ℚ :=
  l.foldl (fun acc v => some (acc.elim v (fun m => min m v))) none

/-- Fold computing the maximum of a list (HeightField::max_elevation); the
f32::NEG_INFINITY initial accumulator is modelled by none. -/
def maxElev (l : List ℚ) : Option ℚ :=
  l.foldl (fun acc v => some (acc.elim v (fun m => max m v))) none

-- ── plates/age_field.rs ──────────────────────────────────────────────────

/-- Latitude in degrees sampled by compute_age_field at grid row r
(age_field.rs line 53: 90.0 - r * 180.0 / (height - 1).max(1)). -/
def age_field_lat (r H : ℕ) : ℚ := 90 - (r : ℚ) * 180 / ((max (H - 1) 1 : ℕ) : ℚ)

/-- Longitude in degrees sampled by compute_age_field at grid column c
(age_field.rs line 55: -180.0 + c * 360.0 / (width - 1).max(1)). -/
def age_field_lon (c W : ℕ) : ℚ := -180 + (c : ℚ) * 360 / ((max (W - 1) 1 : ℕ) : ℚ)

/-- Cell-centred latitude used by cell_to_vec3 (age_field.rs line 108); this
is the formula the spec states for cell (r,c). -/
def cell_to_vec3_lat (r H : ℕ) : ℚ := 90 - ((r : ℚ) + 1/2) * 180 / (H : ℚ)

/-- Cell-centred longitude used by cell_to_vec3 (age_field.rs line 109). -/
def cell_to_vec3_lon (c W : ℕ) : ℚ := -180 + ((c : ℚ) + 1/2) * 360 / (W : ℚ)

/-- Raw (unnormalised) age field of compute_age_field: the nested row/column
loops writing raw[r*width+c] = min over ridges of the point-to-arc distance
at the sampled point.  The spherical geometry (Vec3::from_latlon, the arc
loop with its great-circle early exit) is abstracted as dist lat lon, since
the claim under verification concerns only the sample coordinates. -/
def compute_age_field_raw (dist : ℚ → ℚ → ℚ) (W H : ℕ) : List ℚ :=
  (List.range H).flatMap
    (fun r => (List.range W).map (fun c => dist (age_field_lat r H) (age_field_lon c W)))

/-- Full compute_age_field: guard for empty grid or empty ridge list, then
normalisation of the raw field by its running maximum (initialised 0.0), with
the 1e-12 degenerate-maximum guard. -/
def compute_age_field (dist : ℚ → ℚ → ℚ) (ridgesNonempty : Bool) (W H : ℕ) : List ℚ :=
  let n := W * H
  if n = 0 ∨ ridgesNonempty = false then List.replicate n 1
  else
    let raw := compute_age_field_raw dist W H
    let maxDist := raw.foldl max 0
    if maxDist < 1 / 1000000000000 then List.replicate n 0
    else raw.map (fun v => v / maxDist)

-- ── metrics/hypsometric.rs ───────────────────────────────────────────────

/-- Result of compute_hypsometric; integral = none models f32::NAN. -/
structure HypsometricResult where
  integral : Option ℚ
  cdf : List ℚ
deriving DecidableEq, Repr

/-- compute_hypsometric (hypsometric.rs lines 14-44): NaN integral for the
empty field, 0.0 integral when the elevation range is below 1 m, otherwise
(mean - min)/range plus a 100-point CDF of sorted elevations. -/
def compute_hypsometric (hf : HeightField) : HypsometricResult :=
  let n := hf.data.length
  if n = 0 then { integral := none, cdf := List.replicate 100 0 }
  else
    let mn := (minElev hf.data).getD 0
    let mx := (maxElev hf.data).getD 0
    let range := mx - mn
    if range < 1 then { integral := some 0, cdf := List.replicate 100 0 }
    else
      let mean := hf.data.sum / (n : ℚ)
      let sortedData := hf.data.mergeSort (fun a b => decide (a ≤ b))
      { integral := some ((mean - mn) / range),
        cdf := (List.range 100).map (fun i => (sortedData.getD (i * n / 100) 0 - mn) / range) }

-- ── metrics/score.rs ─────────────────────────────────────────────────────

/-- Per-class reference band (p10, p90). -/
structure Band where
  p10 : ℚ
  p90 : ℚ
deriving DecidableEq, Repr

/-- TerrainClass (noise/params.rs). -/
inductive TerrainClass where
  | Alpine | FluvialHumid | FluvialArid | Cratonic | Coastal
deriving DecidableEq, Repr

/-- GlacialClass (noise/params.rs). -/
inductive GlacialClass where
  | None | Former | Active
deriving DecidableEq, Repr

def hurst_band : TerrainClass → Band
  | .Alpine       => ⟨0.683, 0.819⟩
  | .Coastal      => ⟨0.416, 0.572⟩
  | .Cratonic     => ⟨0.482, 0.662⟩
  | .FluvialArid  => ⟨0.551, 0.782⟩
  | .FluvialHumid => ⟨0.357, 0.629⟩

def roughness_band : TerrainClass → Band
  | .Alpine       => ⟨0.023, 0.712⟩
  | .Coastal      => ⟨-0.156, 0.240⟩
  | .Cratonic     => ⟨0.053, 0.632⟩
  | .FluvialArid  => ⟨-0.087, 0.629⟩
  | .FluvialHumid => ⟨-0.184, 0.560⟩

def multifractal_band : TerrainClass → Band
  | .Alpine       => ⟨0.204, 1.123⟩
  | .Coastal      => ⟨0.149, 0.740⟩
  | .Cratonic     => ⟨0.123, 0.648⟩
  | .FluvialArid  => ⟨0.258, 0.907⟩
  | .FluvialHumid => ⟨0.170, 0.888⟩

def hypsometric_band : TerrainClass → Band
  | .Alpine       => ⟨0.196, 0.513⟩
  | .Coastal      => ⟨0.334, 0.606⟩
  | .Cratonic     => ⟨0.137, 0.435⟩
  | .FluvialArid  => ⟨0.217, 0.521⟩
  | .FluvialHumid => ⟨0.218, 0.509⟩

def drainage_band : TerrainClass → Band
  | .Alpine       => ⟨1.407, 3.187⟩
  | .Coastal      => ⟨0.024, 1.886⟩
  | .Cratonic     => ⟨0.084, 0.972⟩
  | .FluvialArid  => ⟨1.351, 2.793⟩
  | .FluvialHumid => ⟨0.060, 2.662⟩

def morans_band : TerrainClass → Band
  | .Alpine       => ⟨0.021, 0.355⟩
  | .Coastal      => ⟨0.054, 0.404⟩
  | .Cratonic     => ⟨0.027, 0.350⟩
  | .FluvialArid  => ⟨0.062, 0.404⟩
  | .FluvialHumid => ⟨0.068, 0.378⟩

def slope_mode_band : TerrainClass → Band
  | .Alpine       => ⟨0.5, 20.5⟩
  | .Coastal      => ⟨0.5, 1.5⟩
  | .Cratonic     => ⟨0.5, 0.5⟩
  | .FluvialArid  => ⟨0.5, 2.5⟩
  | .FluvialHumid => ⟨0.5, 2.5⟩

def aspect_band : TerrainClass → Band := fun _ => ⟨0.4, 0.85⟩

def tpi_band : TerrainClass → Band
  | .Alpine       => ⟨0.074, 0.130⟩
  | .Coastal      => ⟨0.224, 0.347⟩
  | .Cratonic     => ⟨0.132, 0.334⟩
  | .FluvialArid  => ⟨0.088, 0.198⟩
  | .FluvialHumid => ⟨0.167, 0.393⟩

def GEOMORPHON_L1_PASS : ℚ := 0.15

def SCALE_NEUTRAL : ℚ := 0.65

/-- band_score (score.rs lines 141-152): 1.0 inside the band, linear decay
to 0.0 at a distance equal to the band width outside it. -/
def band_score (value : ℚ) (band : Band) : ℚ :=
  let width := max |band.p90 - band.p10| 0.000001
  if band.p10 ≤ value ∧ value ≤ band.p90 then 1
  else if value < band.p10 then clampQ (1 - (band.p10 - value) / width) 0 1
  else clampQ (1 - (value - band.p90) / width) 0 1

/-- geomorphon_score (score.rs lines 155-161). -/
def geomorphon_score (l1 : ℚ) : ℚ :=
  if l1 ≤ GEOMORPHON_L1_PASS then 1
  else clampQ (1 - (l1 - GEOMORPHON_L1_PASS) / GEOMORPHON_L1_PASS) 0 1

def W_HURST : ℚ := 0.10
def W_ROUGHNESS : ℚ := 0.10
def W_MULTIFRAC : ℚ := 0.08
def W_SLOPE : ℚ := 0.08
def W_ASPECT : ℚ := 0.08
def W_TPI : ℚ := 0.08
def W_HYPS : ℚ := 0.12
def W_GEOMORPHON : ℚ := 0.14
def W_DRAINAGE : ℚ := 0.12
def W_MORANS : ℚ := 0.10

/-- The weights array of compute_realism_score (score.rs line 295). -/
def score_weights : List ℚ :=
  [W_HURST, W_ROUGHNESS, W_MULTIFRAC, W_SLOPE, W_ASPECT, W_TPI,
   W_HYPS, W_GEOMORPHON, W_DRAINAGE, W_MORANS]

/-- Raw outputs of the ten metric estimators plus the cellsize, as consumed
by the scoring section of compute_realism_score.  The estimators themselves
(hurst.rs, geomorphons.rs, ...) are upstream of every scoring claim, so the
scoring logic is embedded parametrically in their outputs; none models a
NaN f32 result. -/
structure RawMetrics where
  hurst_h : Option ℚ
  rough_pearson : Option ℚ
  multi_width : Option ℚ
  slope_mode : Option ℚ
  aspect_cv : Option ℚ
  tpi_val : Option ℚ
  hyps_integral : Option ℚ
  geom_l1 : Option ℚ
  drain_density : Option ℚ
  morans : Option ℚ
  cs : ℚ

/-- The NaN guard closure of compute_realism_score (score.rs line 220):
finite values pass through, NaN falls back to the default.  Plus or minus
infinity cannot arise in the rational model. -/
def finite (v : Option ℚ) (d : ℚ) : ℚ := v.getD d

/-- Per-metric score record (score.rs MetricScore). -/
structure MetricScore where
  name : String
  raw_value : Option ℚ
  score_0_1 : ℚ
  passed : Bool
  subsystem : String
deriving DecidableEq, Repr

/-- Full realism score (score.rs RealismScore). -/
structure RealismScore where
  total : ℚ
  metrics : List MetricScore
deriving DecidableEq, Repr

/-- Scoring section of compute_realism_score (score.rs lines 219-298),
parametric in the raw metric outputs. -/
def compute_realism_score (raw : RawMetrics) (tc : TerrainClass) : RealismScore :=
  let h_score := if raw.cs > 1000 then SCALE_NEUTRAL
                 else band_score (finite raw.hurst_h 0) (hurst_band tc)
  let re_score := band_score (finite raw.rough_pearson 0) (roughness_band tc)
  let mf_raw := finite raw.multi_width 0
  let mf_score := if raw.cs > 1000 ∧ (mf_raw > (multifractal_band tc).p90 ∨ mf_raw < 0)
                  then SCALE_NEUTRAL
                  else band_score mf_raw (multifractal_band tc)
  let sl_score := band_score (finite raw.slope_mode 0) (slope_mode_band tc)
  let as_score := band_score (finite raw.aspect_cv 0.5) (aspect_band tc)
  let tp_score := if raw.cs > 1000 then SCALE_NEUTRAL
                  else band_score (finite raw.tpi_val 0) (tpi_band tc)
  let hy_score := band_score (finite raw.hyps_integral 0) (hypsometric_band tc)
  let gm_score := if raw.cs > 1000 then SCALE_NEUTRAL
                  else geomorphon_score (finite raw.geom_l1 1)
  let dr_score := if raw.cs > 1000 ∧ (drainage_band tc).p10 > 0.5 then SCALE_NEUTRAL
                  else band_score (finite raw.drain_density 0) (drainage_band tc)
  let mo_score := band_score (finite raw.morans 0) (morans_band tc)
  let metrics : List MetricScore :=
    [{ name := "hurst", raw_value := raw.hurst_h, score_0_1 := h_score,
       passed := decide (h_score ≥ 0.5), subsystem := "noise_synth" },
     { name := "roughness_elev", raw_value := raw.rough_pearson, score_0_1 := re_score,
       passed := decide (re_score ≥ 0.5), subsystem := "noise_synth" },
     { name := "multifractal", raw_value := raw.multi_width, score_0_1 := mf_score,
       passed := decide (mf_score ≥ 0.5), subsystem := "noise_synth" },
     { name := "slope_mode", raw_value := raw.slope_mode, score_0_1 := sl_score,
       passed := decide (sl_score ≥ 0.5), subsystem := "hydraulic" },
     { name := "aspect_circ_var", raw_value := raw.aspect_cv, score_0_1 := as_score,
       passed := decide (as_score ≥ 0.5), subsystem := "hydraulic" },
     { name := "tpi_ratio", raw_value := raw.tpi_val, score_0_1 := tp_score,
       passed := decide (tp_score ≥ 0.5), subsystem := "hydraulic" },
     { name := "hypsometric", raw_value := raw.hyps_integral, score_0_1 := hy_score,
       passed := decide (hy_score ≥ 0.5), subsystem := "hydraulic" },
     { name := "geomorphon_l1", raw_value := raw.geom_l1, score_0_1 := gm_score,
       passed := decide (gm_score ≥ 0.5), subsystem := "hydraulic" },
     { name := "drainage", raw_value := raw.drain_density, score_0_1 := dr_score,
       passed := decide (dr_score ≥ 0.5), subsystem := "hydraulic" },
     { name := "morans_i", raw_value := raw.morans, score_0_1 := mo_score,
       passed := decide (mo_score ≥ 0.5), subsystem := "hydraulic" }]
  { total := (List.zipWith (fun m w => m.score_0_1 * w) metrics score_weights).sum * 100,
    metrics := metrics }


-- ── metrics/gradient.rs ──────────────────────────────────────────────────

/-- cellsize_m (gradient.rs lines 8-24): isotropic cellsize in metres from
the geographic bounds, with a 90 m floor for degenerate bounds.  The
mid-latitude cosine is the abstract cosDeg primitive. -/
def cellsize_m (prims : FloatPrims) (hf : HeightField) : ℚ :=
  let lat_extent := |hf.max_lat - hf.min_lat|
  let lon_extent := |hf.max_lon - hf.min_lon|
  let cy := if 0 < hf.height then lat_extent / (hf.height : ℚ) * 111320 else 0
  let mid_lat := (hf.min_lat + hf.max_lat) / 2
  let cx := if 0 < hf.width then lon_extent / (hf.width : ℚ) * 111320 * prims.cosDeg mid_lat
            else 0
  let avg := (cy + cx) / 2
  if avg < 1 / 1000 then 90 else avg

/-- horn_gradient (gradient.rs lines 41-59): Horn (1981) weighted 3×3
gradient at interior cell (r, c); the caller guarantees 1 ≤ r, c. -/
def horn_gradient (hf : HeightField) (r c : ℕ) (cellsize : ℚ) : ℚ × ℚ :=
  let nw := hf.get (r - 1) (c - 1)
  let nn := hf.get (r - 1) c
  let ne := hf.get (r - 1) (c + 1)
  let w := hf.get r (c - 1)
  let e := hf.get r (c + 1)
  let sw := hf.get (r + 1) (c - 1)
  let s := hf.get (r + 1) c
  let se := hf.get (r + 1) (c + 1)
  (((ne + 2 * e + se) - (nw + 2 * w + sw)) / (8 * cellsize),
   ((nw + 2 * nn + ne) - (sw + 2 * s + se)) / (8 * cellsize))

-- ── hydraulic/flow_routing.rs ────────────────────────────────────────────

/-- D8 neighbour (Δrow, Δcol) offsets (flow_routing.rs lines 12-21); index k
corresponds to direction code k+1. -/
def D8_OFFSETS : List (ℤ × ℤ) :=
  [(-1, 0), (-1, 1), (0, 1), (1, 1), (1, 0), (1, -1), (0, -1), (-1, -1)]

/-- Normalised distance to each D8 neighbour (flow_routing.rs lines 24-27). -/
def D8_DIST : List ℚ :=
  [1, sqrt2f64, 1, sqrt2f64, 1, sqrt2f64, 1, sqrt2f64]

/-- FlowField (flow_routing.rs lines 30-37).  Direction codes are 0..=8;
accumulation counts are 1-indexed upstream cell counts (u32 in the source,
whose range is never exceeded at the modelled grid sizes). -/
structure FlowField where
  direction : List ℕ
  accumulation : List ℕ
  width : ℕ
  height : ℕ
deriving DecidableEq, Repr

/-- Pop of the priority-flood min-heap BinaryHeap<Reverse<(OrdF64, usize)>>:
returns the lexicographic minimum (elevation, index) pair and the rest.
Every pushed pair carries a distinct index, so the order is total and the
pop deterministic; OrdF64 NaN handling never triggers in the rational
model. -/
def popMin (heap : List (ℚ × ℕ)) : Option ((ℚ × ℕ) × List (ℚ × ℕ)) :=
  match heap with
  | [] => none
  | x :: xs =>
      let m := xs.foldl
        (fun a b => if b.1 < a.1 ∨ (b.1 = a.1 ∧ b.2 < a.2) then b else a) x
      some (m, heap.erase m)

/-- Working state of the priority-flood loop (flood fill of
flow_routing.rs lines 103-142). -/
structure FloodState where
  filled : List ℚ
  visited : List Bool
  heap : List (ℚ × ℕ)

/-- One neighbour update of a priority-flood pop (flow_routing.rs lines
124-139): raise an unvisited in-bounds neighbour to at least the popped
elevation, mark it visited, and push it. -/
def floodStep (rows cols : ℕ) (i : ℕ) (elev : ℚ) (st : FloodState)
    (od : ℤ × ℤ) : FloodState :=
  let r := i / cols
  let c := i % cols
  let nr := (r : ℤ) + od.1
  let nc := (c : ℤ) + od.2
  if nr < 0 ∨ nc < 0 ∨ nr ≥ (rows : ℤ) ∨ nc ≥ (cols : ℤ) then st
  else
    let j := nr.toNat * cols + nc.toNat
    if st.visited.getD j false then st
    else
      let visited1 := st.visited.set j true
      let filled1 := if st.filled.getD j 0 < elev then st.filled.set j elev
                     else st.filled
      { visited := visited1, filled := filled1,
        heap := (filled1.getD j 0, j) :: st.heap }

/-- Neighbour scan of one priority-flood pop: fold of floodStep over the
eight D8 offsets. -/
def floodNeighbors (rows cols : ℕ) (i : ℕ) (elev : ℚ) (st : FloodState) :
    FloodState :=
  D8_OFFSETS.foldl (floodStep rows cols i elev) st

/-- While-loop of priority_flood, with fuel.  Each cell is pushed at most
once (edges at seeding, interior cells when first visited), so at most
rows·cols pops can ever occur and fuel = rows·cols drains the heap. -/
def floodLoop (rows cols : ℕ) : ℕ → FloodState → FloodState
  | 0, st => st
  | fuel + 1, st =>
      match popMin st.heap with
      | none => st
      | some ((elev, i), rest) =>
          floodLoop rows cols fuel
            (floodNeighbors rows cols i elev { st with heap := rest })

/-- Raster-edge seed cells of priority_flood (flow_routing.rs lines
111-119), as row-major indices. -/
def floodSeeds (rows cols : ℕ) : List ℕ :=
  (List.range rows).flatMap (fun r =>
    (List.range cols).filterMap (fun c =>
      if r = 0 ∨ r = rows - 1 ∨ c = 0 ∨ c = cols - 1 then some (r * cols + c)
      else none))

/-- priority_flood (flow_routing.rs lines 103-142): Barnes 2014 pit
filling.  Seeds the min-heap with all raster-edge cells (marked visited),
then floods inward, only ever raising elevations. -/
def priority_flood (hf : HeightField) : List ℚ :=
  let rows := hf.height
  let cols := hf.width
  let n := rows * cols
  let seeds := floodSeeds rows cols
  let visited := seeds.foldl (fun v i => v.set i true) (List.replicate n false)
  let heap := seeds.map (fun i => (hf.data.getD i 0, i))
  (floodLoop rows cols n
    { filled := hf.data, visited := visited, heap := heap }).filled

/-- compute_d8_flow (flow_routing.rs lines 45-96): priority-flood fill,
steepest-descent D8 directions, then flow accumulation along a
descending-elevation order of the filled field. -/
def compute_d8_flow (hf : HeightField) : FlowField :=
  let rows := hf.height
  let cols := hf.width
  let n := rows * cols
  let filled := priority_flood hf
  let direction := (List.range rows).flatMap (fun r =>
    (List.range cols).map (fun c =>
      let z0 := filled.getD (r * cols + c) 0
      let chosen := (List.range 8).foldl (fun bc k =>
        let od := D8_OFFSETS.getD k (0, 0)
        let nr := (r : ℤ) + od.1
        let nc := (c : ℤ) + od.2
        if nr < 0 ∨ nc < 0 ∨ nr ≥ (rows : ℤ) ∨ nc ≥ (cols : ℤ) then bc
        else
          let slope := (z0 - filled.getD (nr.toNat * cols + nc.toNat) 0)
            / D8_DIST.getD k 1
          if bc.1 < slope then (slope, k + 1) else bc) ((0 : ℚ), (0 : ℕ))
      chosen.2))
  let order := (List.range n).mergeSort
    (fun a b => decide (filled.getD b 0 ≤ filled.getD a 0))
  let accumulation := order.foldl (fun acc i =>
    let code := direction.getD i 0
    if code = 0 then acc
    else
      let od := D8_OFFSETS.getD (code - 1) (0, 0)
      let r := i / cols
      let c := i % cols
      let nr := (r : ℤ) + od.1
      let nc := (c : ℤ) + od.2
      if 0 ≤ nr ∧ 0 ≤ nc ∧ nr < (rows : ℤ) ∧ nc < (cols : ℤ) then
        let j := nr.toNat * cols + nc.toNat
        acc.set j (acc.getD j 0 + acc.getD i 0)
      else acc) (List.replicate n 1)
  { direction := direction, accumulation := accumulation,
    width := cols, height := rows }

-- ── hydraulic/mass_wasting.rs ────────────────────────────────────────────

/-- Search step for the steepest in-bounds D8 downslope neighbour
(mass_wasting.rs lines 43-56): bb carries (best_drop, best_nb). -/
def massBestStep (rows cols : ℕ) (cs : ℚ) (hfc : HeightField) (r c : ℕ)
    (z0 : ℚ) (bb : ℚ × Option (ℕ × ℕ × ℚ)) (k : ℕ) : ℚ × Option (ℕ × ℕ × ℚ) :=
  let od := D8_OFFSETS.getD k (0, 0)
  let nr := (r : ℤ) + od.1
  let nc := (c : ℤ) + od.2
  if nr < 0 ∨ nc < 0 ∨ nr ≥ (rows : ℤ) ∨ nc ≥ (cols : ℤ) then bb
  else
    let z1 := hfc.get nr.toNat nc.toNat
    let dist := cs * D8_DIST.getD k 1
    let drop := (z0 - z1) / dist
    if bb.1 < drop then (drop, some (nr.toNat, nc.toNat, dist)) else bb

/-- Body of the mass-wasting sweep for one interior cell (mass_wasting.rs
lines 30-67): if the Horn slope exceeds the repose tangent, transfer
((z0−z1) − tan·dist)/2 to the steepest downslope neighbour. -/
def massWastingCell (prims : FloatPrims) (rows cols : ℕ) (cs tan_repose : ℚ)
    (hfc : HeightField) (i : ℕ) : HeightField :=
  let r := i / cols
  let c := i % cols
  let g := horn_gradient hfc r c cs
  let slope_mag := prims.sqrt (g.1 * g.1 + g.2 * g.2)
  if slope_mag ≤ tan_repose then hfc
  else
    let z0 := hfc.get r c
    let best := (List.range 8).foldl (massBestStep rows cols cs hfc r c z0)
      ((0 : ℚ), none)
    match best.2 with
    | none => hfc
    | some (nr, nc, dist) =>
        let z1 := hfc.get nr nc
        let transfer := ((z0 - z1) - tan_repose * dist) / 2
        if 0 < transfer then
          (hfc.set r c (z0 - transfer)).set nr nc (z1 + transfer)
        else hfc

/-- Interior-cell index list of the mass-wasting sweep (mass_wasting.rs
lines 23-25), before sorting. -/
def massOrder0 (rows cols : ℕ) : List ℕ :=
  (List.range' 1 (rows - 1 - 1)).flatMap (fun r =>
    (List.range' 1 (cols - 1 - 1)).map (fun c => r * cols + c))

/-- apply_mass_wasting (mass_wasting.rs lines 16-68): process interior
cells in descending order of the ORIGINAL elevations; where the Horn slope
exceeds tan(angle of repose), transfer ((z0−z1) − tan·dist)/2 to the
steepest in-bounds D8 downslope neighbour.  For heights below 3 the
interior is empty and the field is returned unchanged (the usize underflow
of the 0-height case aborts earlier inside apply_stream_power and is
modelled there). -/
def apply_mass_wasting (prims : FloatPrims) (hf : HeightField)
    (angle_of_repose_deg : ℚ) : HeightField :=
  let rows := hf.height
  let cols := hf.width
  let cs := cellsize_m prims hf
  let tan_repose := prims.tanDeg angle_of_repose_deg
  let order := (massOrder0 rows cols).mergeSort
    (fun a b => decide (hf.data.getD b 0 ≤ hf.data.getD a 0))
  order.foldl (massWastingCell prims rows cols cs tan_repose) hf

-- ── hydraulic/stream_power.rs ────────────────────────────────────────────

/-- Erosion Δz field over interior cells (stream_power.rs lines 83-105),
given the already-computed interior loop bounds rowEnd = rows−1 and colEnd
= cols−1.  erodibility[i] is modelled with getD (the pipeline passes
either an empty vector or one of grid length). -/
def stream_delta (prims : FloatPrims) (hf : HeightField) (erod : List ℚ)
    (uniform_k : Bool) (flow : FlowField) (rowEnd colEnd : ℕ) : List ℚ :=
  let cs := cellsize_m prims hf
  let cols := hf.width
  (List.range' 1 (rowEnd - 1)).foldl (fun d r =>
    (List.range' 1 (colEnd - 1)).foldl (fun d c =>
      let i := r * cols + c
      let k : ℚ := if uniform_k then 1/2 else erod.getD i 0
      if k ≤ 0 then d
      else
        let accum : ℚ := (flow.accumulation.getD i 0 : ℕ)
        let g := horn_gradient hf r c cs
        let slope := prims.sqrt (g.1 * g.1 + g.2 * g.2)
        let dz := -(k * prims.sqrt accum * slope)
        d.set i (clampQ dz (-10) 0)) d)
    (List.replicate (hf.height * hf.width) (0 : ℚ))

/-- Applying the Δz field (stream_power.rs lines 107-110): each elevation
becomes max(z + Δz, 0). -/
def erosion_update (data delta : List ℚ) : List ℚ :=
  (List.range delta.length).foldl
    (fun dl i => dl.set i (max (dl.getD i 0 + delta.getD i 0) 0)) data

/-- One iteration body of apply_stream_power (stream_power.rs lines 33-62):
the erosion delta over interior cells, the clamp of all cells to ≥ 0, and
the mass-wasting pass.  The interior loop bounds rows−1 and cols−1 are
usize subtractions: for a zero dimension they abort (underflow panic in a
debug build; in release the wrapped bound makes flow.accumulation[i] index
out of bounds and panic), modelled by usizeSub. -/
def stream_power_iteration (prims : FloatPrims) (hf : HeightField)
    (erod : List ℚ) (uniform_k : Bool) (angle : ℚ) (flow : FlowField) :
    Except Panic HeightField := do
  let rowEnd ← usizeSub hf.height 1
  let colEnd ← if 1 < rowEnd then usizeSub hf.width 1 else pure 1
  pure (apply_mass_wasting prims { hf with
    data := erosion_update hf.data (stream_delta prims hf erod uniform_k flow rowEnd colEnd) } angle)

/-- Iteration loop of apply_stream_power (stream_power.rs line 33),
recomputing the flow routing after each iteration (line 62). -/
def apply_stream_power_loop (prims : FloatPrims) (erod : List ℚ)
    (uniform_k : Bool) (angle : ℚ) :
    ℕ → HeightField → FlowField → Except Panic (HeightField × FlowField)
  | 0, hf, flow => pure (hf, flow)
  | Nat.succ k, hf, flow => do
      let hf1 ← stream_power_iteration prims hf erod uniform_k angle flow
      apply_stream_power_loop prims erod uniform_k angle k hf1 (compute_d8_flow hf1)

/-- apply_stream_power (stream_power.rs lines 22-66). -/
def apply_stream_power (prims : FloatPrims) (hf : HeightField) (erod : List ℚ)
    (iterations : ℕ) (angle : ℚ) : Except Panic (HeightField × FlowField) :=
  apply_stream_power_loop prims erod erod.isEmpty angle iterations hf
    (compute_d8_flow hf)

-- ── hydraulic/mod.rs and stream_network.rs ───────────────────────────────

/-- Stream thresholds (stream_network.rs lines 9-13). -/
def A_MIN_ALPINE : ℕ := 200
def A_MIN_FLUVIAL_HUMID : ℕ := 100
def A_MIN_FLUVIAL_ARID : ℕ := 300
def A_MIN_CRATONIC : ℕ := 500
def A_MIN_COASTAL : ℕ := 400

/-- HydraulicParams (hydraulic/mod.rs lines 31-35). -/
structure HydraulicParams where
  a_min : ℕ
  erosion_iters : ℕ
  angle_of_repose_deg : ℚ
deriving DecidableEq, Repr

/-- params_for_class (hydraulic/mod.rs lines 37-65). -/
def params_for_class : TerrainClass → HydraulicParams
  | .Alpine => ⟨A_MIN_ALPINE, 30, 35⟩
  | .FluvialHumid => ⟨A_MIN_FLUVIAL_HUMID, 50, 30⟩
  | .FluvialArid => ⟨A_MIN_FLUVIAL_ARID, 20, 35⟩
  | .Cratonic => ⟨A_MIN_CRATONIC, 10, 25⟩
  | .Coastal => ⟨A_MIN_COASTAL, 25, 20⟩

-- ── climate/seasonality.rs ───────────────────────────────────────────────

/-- Rust clamp over the reals (lo ≤ hi at every call site). -/
def clampR (x lo hi : ℝ) : ℝ := max lo (min x hi)

/-- generate_seasonality (seasonality.rs lines 15-51).  powf is modelled by
Real.rpow, so the result lives in ℝ; all other arithmetic is rational.
The row loop hoists the latitude contribution; the column loop applies the
precipitation damping and the final clamp to [0,1]. -/
noncomputable def generate_seasonality (map_field : List ℚ) (width height : ℕ) :
    List ℝ :=
  if width * height = 0 ∨ map_field = [] then []
  else
    (List.range height).flatMap (fun r =>
      let lat_deg : ℚ := 90 - ((r : ℚ) + 0.5) / (height : ℚ) * 180
      let lat_abs : ℚ := |lat_deg|
      let lat_contribution : ℝ := ((lat_abs / 90 : ℚ) : ℝ) ^ (0.7 : ℝ)
      (List.range width).map (fun c =>
        let map_mm : ℚ := map_field.getD (r * width + c) 0
        let map_ratio : ℚ := min (map_mm / 2500) 1
        let map_dampen : ℚ := 1 - map_ratio * 0.80
        clampR (lat_contribution * ((map_dampen : ℚ) : ℝ)) 0 1))

-- ── noise/hypsometric_shape.rs ───────────────────────────────────────────

/-- Minimum of a list of reals with the same fold shape as minElev, used to
state envelope preservation for the real-valued shaping output. -/
noncomputable def minElevR (l : List ℝ) : Option ℝ :=
  l.foldl (fun acc v => some (acc.elim v (fun m => min m v))) none

/-- Maximum of a list of reals with the same fold shape as maxElev. -/
noncomputable def maxElevR (l : List ℝ) : Option ℝ :=
  l.foldl (fun acc v => some (acc.elim v (fun m => max m v))) none

/-- Sorting pass of apply_hypsometric_shaping (hypsometric_shape.rs lines
26-29): cell indices sorted stably by ascending elevation. -/
def shapeOrder (data : List ℚ) : List ℕ :=
  (List.range data.length).mergeSort
    (fun a b => decide (data.getD a 0 ≤ data.getD b 0))

/-- Write pass of apply_hypsometric_shaping (hypsometric_shape.rs lines
31-36): for each (rank, idx) pair of the sorted order, write
min + (rank/(n−1))^gamma · range into new_data[idx] (new_data is
initialised with zeros).  powf is modelled by Real.rpow. -/
noncomputable def shapeOut (data : List ℚ) (gamma mn range : ℚ) : List ℝ :=
  (shapeOrder data).enum.foldl
    (fun nd ri =>
      let p : ℚ := (ri.1 : ℚ) / ((data.length - 1 : ℕ) : ℚ)
      nd.set ri.2 ((mn : ℝ) + ((p : ℝ) ^ (gamma : ℝ)) * ((range : ℚ) : ℝ)))
    (List.replicate data.length (0 : ℝ))

/-- apply_hypsometric_shaping (hypsometric_shape.rs lines 14-38): clamp the
target HI to [0.05, 0.95], set gamma = max(1/target − 1, 0.1), return
unchanged for an empty or near-flat field, otherwise sort cell indices by
elevation and remap each cell through the rank-percentile power curve. -/
noncomputable def apply_hypsometric_shaping (hf : HeightField) (target_hi : ℚ) :
    List ℝ :=
  let n := hf.data.length
  if n = 0 then hf.data.map (fun q => (q : ℝ))
  else
    let target := clampQ target_hi 0.05 0.95
    let gamma : ℚ := max (1 / target - 1) 0.1
    let mn := (minElev hf.data).getD 0
    let mx := (maxElev hf.data).getD 0
    let range := mx - mn
    if range < 1 then hf.data.map (fun q => (q : ℝ))
    else shapeOut hf.data gamma mn range

-- ── hydraulic/basins.rs ──────────────────────────────────────────────────

/-- Per-basin statistics record (basins.rs lines 8-20). -/
structure DrainageBasin where
  id : ℕ
  area_cells : ℕ
  hypsometric_integral : ℚ
  elongation_ratio : ℚ
  circularity : ℚ
  mean_slope : ℚ
deriving DecidableEq, Repr

/-- Exact rational value of the f32 constant std::f32::consts::PI. -/
def PI_F32 : ℚ := 13176795 / 4194304

/-- Reverse flow graph (basins.rs lines 32-47): donors[j] lists the cells
whose D8 direction points at j, in ascending cell order.  The row loops
over r and c are fused into one loop over i with r = i / cols, c = i %
cols.  flow.direction[i] is modelled with getD (the flow field always has
direction length rows·cols); a default code 0 is skipped like a sink. -/
def basinDonors (flow : FlowField) : List (List ℕ) :=
  let rows := flow.height
  let cols := flow.width
  let n := rows * cols
  (List.range n).foldl (fun donors i =>
    let code := flow.direction.getD i 0
    if code = 0 then donors
    else
      let off := D8_OFFSETS.getD (code - 1) (0, 0)
      let nr : ℤ := (i / cols : ℕ) + off.1
      let nc : ℤ := (i % cols : ℕ) + off.2
      if 0 ≤ nr ∧ 0 ≤ nc ∧ nr < (rows : ℤ) ∧ nc < (cols : ℤ) then
        let j := nr.toNat * cols + nc.toNat
        donors.set j (donors.getD j [] ++ [i])
      else donors)
    (List.replicate n [])

/-- Outlet flags (basins.rs lines 52-66): direction 0, or a downstream
neighbour outside the raster.  The source enumerates flow.direction. -/
def basinOutlets (flow : FlowField) : List Bool :=
  let rows := flow.height
  let cols := flow.width
  let n := rows * cols
  (List.range flow.direction.length).foldl (fun outl i =>
    let code := flow.direction.getD i 0
    if code = 0 then outl.set i true
    else
      let off := D8_OFFSETS.getD (code - 1) (0, 0)
      let nr : ℤ := (i / cols : ℕ) + off.1
      let nc : ℤ := (i % cols : ℕ) + off.2
      if nr < 0 ∨ nc < 0 ∨ (rows : ℤ) ≤ nr ∨ (cols : ℤ) ≤ nc then outl.set i true
      else outl)
    (List.replicate n false)

/-- Breadth-first walk of the reverse flow graph from one outlet (basins.rs
lines 79-86).  The VecDeque is a list popped at the head and pushed at the
tail.  basin_id entries use none for the u32::MAX sentinel.  The fuel
bounds the number of pops; each pop is preceded by a push and every push
follows a fresh assignment of a sentinel cell (or is the seed), so fuel =
n + 1 reproduces the source loop exactly.  The getD default some 0 makes
an out-of-range donor a no-op (donor indices are in range by
construction). -/
def basinBFS (donors : List (List ℕ)) (nid : ℕ) :
    ℕ → List ℕ → List (Option ℕ) → List (Option ℕ)
  | 0, _, bid => bid
  | Nat.succ _, [], bid => bid
  | Nat.succ fuel, j :: queue, bid =>
      let step := (donors.getD j []).foldl
        (fun (p : List (Option ℕ) × List ℕ) donor =>
          if p.1.getD donor (some 0) = none then
            (p.1.set donor (some nid), p.2 ++ [donor])
          else p)
        (bid, queue)
      basinBFS donors nid fuel step.2 step.1

/-- Outlet-rooted basin assignment (basins.rs lines 69-88): scan all cells;
at each outlet, assign the next id and flood backwards through the donor
graph.  Returns the basin_id vector (none = u32::MAX sentinel) and
next_id. -/
def basinAssign (flow : FlowField) : List (Option ℕ) × ℕ :=
  let n := flow.height * flow.width
  let donors := basinDonors flow
  let outl := basinOutlets flow
  (List.range n).foldl (fun (p : List (Option ℕ) × ℕ) i =>
    if outl.getD i false then
      (basinBFS donors p.2 (n + 1) [i] (p.1.set i (some p.2)), p.2 + 1)
    else p)
    (List.replicate n (none : Option ℕ), 0)

/-- Singleton fixup (basins.rs lines 92-97): every remaining sentinel cell
becomes its own fresh basin.  Returns the final basin ids and next_id. -/
def basinFixup : List (Option ℕ) → ℕ → List ℕ × ℕ
  | [], nid => ([], nid)
  | some b :: rest, nid =>
      let p := basinFixup rest nid
      (b :: p.1, p.2)
  | none :: rest, nid =>
      let p := basinFixup rest (nid + 1)
      (nid :: p.1, p.2)

/-- Accumulators of the per-basin statistics loop (basins.rs lines
102-112).  min_z and max_z use none for the ±∞ initial values. -/
structure BasinStats where
  min_z : List (Option ℚ)
  max_z : List (Option ℚ)
  sum_z : List ℚ
  area : List ℕ
  perimeter : List ℕ
  min_r : List ℕ
  max_r : List ℕ
  min_c : List ℕ
  max_c : List ℕ
  sum_slope : List ℚ
  slope_count : List ℕ

/-- Statistics update for one cell (basins.rs lines 114-146).  The
wrapping usize subtraction in the 4-neighbour perimeter test always fails
the bounds check when r = 0 or c = 0, which the signed comparison
reproduces. -/
def basinStatsStep (prims : FloatPrims) (hf : HeightField) (rows cols : ℕ)
    (cs : ℚ) (basin_id : List ℕ) (st : BasinStats) (i : ℕ) : BasinStats :=
  let r := i / cols
  let c := i % cols
  let bid := basin_id.getD i 0
  let z := hf.get r c
  let min_z1 := match st.min_z.getD bid none with
    | none => st.min_z.set bid (some z)
    | some m => if z < m then st.min_z.set bid (some z) else st.min_z
  let max_z1 := match st.max_z.getD bid none with
    | none => st.max_z.set bid (some z)
    | some m => if m < z then st.max_z.set bid (some z) else st.max_z
  let slope_upd := 1 ≤ r ∧ r < rows - 1 ∧ 1 ≤ c ∧ c < cols - 1
  let g := horn_gradient hf r c cs
  let nbrs : List (ℤ × ℤ) :=
    [((r : ℤ) - 1, (c : ℤ)), ((r : ℤ) + 1, (c : ℤ)),
     ((r : ℤ), (c : ℤ) - 1), ((r : ℤ), (c : ℤ) + 1)]
  let is_perim := nbrs.any (fun q =>
    if 0 ≤ q.1 ∧ q.1 < (rows : ℤ) ∧ 0 ≤ q.2 ∧ q.2 < (cols : ℤ) then
      decide (basin_id.getD (q.1.toNat * cols + q.2.toNat) 0 ≠ bid)
    else true)
  { min_z := min_z1
    max_z := max_z1
    sum_z := st.sum_z.set bid (st.sum_z.getD bid 0 + z)
    area := st.area.set bid (st.area.getD bid 0 + 1)
    perimeter := if is_perim then
        st.perimeter.set bid (st.perimeter.getD bid 0 + 1)
      else st.perimeter
    min_r := if r < st.min_r.getD bid 0 then st.min_r.set bid r else st.min_r
    max_r := if st.max_r.getD bid 0 < r then st.max_r.set bid r else st.max_r
    min_c := if c < st.min_c.getD bid 0 then st.min_c.set bid c else st.min_c
    max_c := if st.max_c.getD bid 0 < c then st.max_c.set bid c else st.max_c
    sum_slope := if slope_upd then
        st.sum_slope.set bid
          (st.sum_slope.getD bid 0 + prims.sqrt (g.1 * g.1 + g.2 * g.2))
      else st.sum_slope
    slope_count := if slope_upd then
        st.slope_count.set bid (st.slope_count.getD bid 0 + 1)
      else st.slope_count }

/-- The statistics loop (basins.rs lines 100-146) over all cells in row
major order. -/
def basinStats (prims : FloatPrims) (flow : FlowField) (hf : HeightField)
    (basin_id : List ℕ) (num_basins : ℕ) : BasinStats :=
  let rows := flow.height
  let cols := flow.width
  (List.range (rows * cols)).foldl
    (basinStatsStep prims hf rows cols (cellsize_m prims hf) basin_id)
    ⟨List.replicate num_basins none, List.replicate num_basins none,
     List.replicate num_basins 0, List.replicate num_basins 0,
     List.replicate num_basins 0, List.replicate num_basins rows,
     List.replicate num_basins 0, List.replicate num_basins cols,
     List.replicate num_basins 0, List.replicate num_basins 0,
     List.replicate num_basins 0⟩

/-- delineate_basins (basins.rs lines 26-177).  The hypsometric branch on
(max_z − min_z) > 1.0 with ±∞ sentinels yields 0.5 for an empty basin in
the source, matched by the wildcard 1/2 here.  f32 sqrt is prims.sqrt and
f32 π is PI_F32. -/
def delineate_basins (prims : FloatPrims) (flow : FlowField)
    (hf : HeightField) : List DrainageBasin :=
  let assigned := basinAssign flow
  let fix := basinFixup assigned.1 assigned.2
  let basin_id := fix.1
  let num_basins := fix.2
  let st := basinStats prims flow hf basin_id num_basins
  (List.range num_basins).map (fun bid =>
    let a := st.area.getD bid 0
    let hi := match st.max_z.getD bid none, st.min_z.getD bid none with
      | some mz, some nz =>
          if 1 < mz - nz then (st.sum_z.getD bid 0 / (a : ℚ) - nz) / (mz - nz)
          else 1/2
      | _, _ => 1/2
    let bbox_rows : ℚ := ((st.max_r.getD bid 0 + 1) - st.min_r.getD bid 0 : ℕ)
    let bbox_cols : ℚ := ((st.max_c.getD bid 0 + 1) - st.min_c.getD bid 0 : ℕ)
    let bbox_max := max (max bbox_rows bbox_cols) 1
    let equiv_diam := prims.sqrt (4 * (a : ℚ) / PI_F32)
    let p : ℚ := (max (st.perimeter.getD bid 0) 1 : ℕ)
    { id := bid
      area_cells := a
      hypsometric_integral := clampQ hi 0 1
      elongation_ratio := clampQ (equiv_diam / bbox_max) 0 1
      circularity := clampQ (4 * PI_F32 * (a : ℚ) / (p * p)) 0 1
      mean_slope := if 0 < st.slope_count.getD bid 0 then
          st.sum_slope.getD bid 0 / (st.slope_count.getD bid 0 : ℚ)
        else 0 })


-- ════════════════════════════════════════════════════════════════════════
-- THEOREMS
-- ════════════════════════════════════════════════════════════════════════

-- Helper lemmas for row-major indexing through the nested loops.

lemma length_flatMap_range_map {β : Type} (f : ℕ → ℕ → β) (W H : ℕ) :
    ((List.range H).flatMap (fun r => (List.range W).map (f r))).length = H * W := by
  induction H with
  | zero => simp
  | succ h ih =>
      rw [List.range_succ, List.flatMap_append]
      simp [ih, Nat.succ_mul]

lemma flatMap_range_map_getD {β : Type} [Inhabited β] (f : ℕ → ℕ → β) (W H r c : ℕ)
    (hr : r < H) (hc : c < W) (d : β) :
    ((List.range H).flatMap (fun i => (List.range W).map (f i))).getD (r * W + c) d
      = f r c := by
  induction H with
  | zero => omega
  | succ h ih =>
      rw [List.range_succ, List.flatMap_append]
      rcases Nat.lt_or_ge r h with hlt | hge
      · rw [List.getD_append]
        · exact ih hlt
        · rw [length_flatMap_range_map]
          calc r * W + c < r * W + W := by omega
            _ = (r + 1) * W := by ring
            _ ≤ h * W := Nat.mul_le_mul_right W hlt
      · have hrh : r = h := by omega
        subst hrh
        rw [List.getD_eq_getElem?_getD, List.getElem?_append_right]
        · simp only [length_flatMap_range_map]
          have hidx : r * W + c - r * W = c := by omega
          rw [hidx]
          simp [List.getElem?_map, List.getElem?_range hc]
        · rw [length_flatMap_range_map]; omega

-- ── C3 ───────────────────────────────────────────────────────────────────

/-- C3 (amended): for every grid size W×H and in-bounds cell (r,c), the
lithospheric age field evaluates its minimum point-to-arc ridge distance at
the NODE-REGISTERED point with latitude 90 − r·180/max(H−1,1) degrees and
longitude −180 + c·360/max(W−1,1) degrees — not at the cell-centred point
stated by the claim, which is used only by cell_to_vec3. -/
theorem age_field_samples_node_registered (dist : ℚ → ℚ → ℚ) (W H r c : ℕ)
    (hr : r < H) (hc : c < W) :
    (compute_age_field_raw dist W H).getD (r * W + c) 0
      = dist (90 - (r : ℚ) * 180 / ((max (H - 1) 1 : ℕ) : ℚ))
             (-180 + (c : ℚ) * 360 / ((max (W - 1) 1 : ℕ) : ℚ)) := by
  unfold compute_age_field_raw
  rw [flatMap_range_map_getD _ W H r c hr hc]
  rfl

/-- Witness for the amended C3 theorem at a concrete grid and cell. -/
theorem age_field_samples_node_registered_witness :
    (compute_age_field_raw (fun la lo => la * 1000 + lo) 4 2).getD (1 * 4 + 2) 0
      = (fun la lo => la * 1000 + lo)
          (90 - (1 : ℚ) * 180 / ((max (2 - 1) 1 : ℕ) : ℚ))
          (-180 + (2 : ℚ) * 360 / ((max (4 - 1) 1 : ℕ) : ℚ)) :=
  age_field_samples_node_registered (fun la lo => la * 1000 + lo) 4 2 1 2
    (by decide) (by decide)

/-- Counterexample to C3 as stated: on a 2×2 grid the age field samples
cell (0,0) at latitude 90 and longitude −180 (node-registered), while the
cell-centred formula of the claim gives latitude 45 and longitude −90. -/
theorem age_field_not_cell_centred :
    (compute_age_field_raw (fun la _ => la) 2 2).getD 0 0 = 90
      ∧ cell_to_vec3_lat 0 2 = 45
      ∧ cell_to_vec3_lon 0 2 = -90
      ∧ age_field_lat 0 2 = 90
      ∧ age_field_lon 0 2 = -180
      ∧ (90 : ℚ) ≠ 45 := by
  refine ⟨?_, ?_, ?_, ?_, ?_, by norm_num⟩ <;>
    simp [compute_age_field_raw, age_field_lat, age_field_lon,
      cell_to_vec3_lat, cell_to_vec3_lon, List.range_succ] <;> norm_num

-- ── C2 ───────────────────────────────────────────────────────────────────

/-- C2 (amended): for every non-empty heightfield whose elevation range is
below 1 m, compute_hypsometric returns 0.0 (not NaN) as the integral, and
the scorer consequently band-scores the value 0 against the class band
(rather than treating the metric as score 0); for the FluvialHumid band
that score is 73/291, which is not 0. -/
theorem hypsometric_flat_returns_zero (hf : HeightField) (tc : TerrainClass)
    (hne : hf.data ≠ [])
    (hrange : (maxElev hf.data).getD 0 - (minElev hf.data).getD 0 < 1) :
    (compute_hypsometric hf).integral = some 0
      ∧ band_score (finite (compute_hypsometric hf).integral 0) (hypsometric_band tc)
          = band_score 0 (hypsometric_band tc)
      ∧ band_score 0 (hypsometric_band TerrainClass.FluvialHumid) = 73 / 291 := by
  have hlen : ¬ hf.data.length = 0 := by
    simpa [List.length_eq_zero] using hne
  have h1 : (compute_hypsometric hf).integral = some 0 := by
    unfold compute_hypsometric
    simp only [hlen, if_false, hrange, if_true]
  refine ⟨h1, by rw [h1]; rfl, ?_⟩
  norm_num [band_score, hypsometric_band, clampQ, max_def, min_def, abs]

/-- Witness for the amended C2 theorem on a concrete flat heightfield. -/
theorem hypsometric_flat_returns_zero_witness :
    (compute_hypsometric ⟨[7, 7], 2, 1, 0, 1, 0, 1⟩).integral = some 0
      ∧ band_score (finite (compute_hypsometric ⟨[7, 7], 2, 1, 0, 1, 0, 1⟩).integral 0)
          (hypsometric_band TerrainClass.Cratonic)
          = band_score 0 (hypsometric_band TerrainClass.Cratonic)
      ∧ band_score 0 (hypsometric_band TerrainClass.FluvialHumid) = 73 / 291 :=
  hypsometric_flat_returns_zero ⟨[7, 7], 2, 1, 0, 1, 0, 1⟩ TerrainClass.Cratonic
    (by simp) (by simp [maxElev, minElev])

/-- Counterexample to C2 as stated: a concrete non-empty heightfield with
elevation range 0 m (below 1 m) for which the hypsometric integral is 0.0,
not NaN. -/
theorem hypsometric_flat_not_nan :
    (compute_hypsometric ⟨[5, 5], 2, 1, 0, 1, 0, 1⟩).integral = some 0
      ∧ (compute_hypsometric ⟨[5, 5], 2, 1, 0, 1, 0, 1⟩).integral ≠ none := by
  have h : (compute_hypsometric ⟨[5, 5], 2, 1, 0, 1, 0, 1⟩).integral = some 0 := by
    simp [compute_hypsometric, maxElev, minElev]
  exact ⟨h, by rw [h]; simp⟩

-- ── C8 ───────────────────────────────────────────────────────────────────

lemma scale_neutral_bounds : 0 ≤ SCALE_NEUTRAL ∧ SCALE_NEUTRAL ≤ 1 := by
  norm_num [SCALE_NEUTRAL]

lemma clampQ_unit_bounds (x : ℚ) : 0 ≤ clampQ x 0 1 ∧ clampQ x 0 1 ≤ 1 := by
  unfold clampQ
  constructor
  · exact le_max_left 0 _
  · exact max_le (by norm_num) (min_le_right x 1)

lemma band_score_bounds (v : ℚ) (b : Band) :
    0 ≤ band_score v b ∧ band_score v b ≤ 1 := by
  unfold band_score
  split_ifs with h1 h2
  · norm_num
  · exact clampQ_unit_bounds _
  · exact clampQ_unit_bounds _

lemma geomorphon_score_bounds (l1 : ℚ) :
    0 ≤ geomorphon_score l1 ∧ geomorphon_score l1 ≤ 1 := by
  unfold geomorphon_score
  split_ifs with h
  · norm_num
  · exact clampQ_unit_bounds _

lemma zipWith_weight_sum_bounds :
    ∀ (ms : List MetricScore) (ws : List ℚ),
      (∀ m ∈ ms, 0 ≤ m.score_0_1 ∧ m.score_0_1 ≤ 1) →
      (∀ w ∈ ws, 0 ≤ w) →
      0 ≤ (List.zipWith (fun m w => m.score_0_1 * w) ms ws).sum
        ∧ (List.zipWith (fun m w => m.score_0_1 * w) ms ws).sum ≤ ws.sum := by
  intro ms
  induction ms with
  | nil =>
      intro ws _ hw
      simp only [List.zipWith_nil_left, List.sum_nil]
      exact ⟨le_refl 0, List.sum_nonneg hw⟩
  | cons m ms ih =>
      intro ws hs hw
      cases ws with
      | nil => simp
      | cons w ws =>
          have hm := hs m (List.mem_cons_self m ms)
          have hwh := hw w (List.mem_cons_self w ws)
          have ih2 := ih ws (fun x hx => hs x (List.mem_cons_of_mem m hx))
            (fun x hx => hw x (List.mem_cons_of_mem w hx))
          simp only [List.zipWith_cons_cons, List.sum_cons]
          constructor
          · have : 0 ≤ m.score_0_1 * w := mul_nonneg hm.1 hwh
            linarith [ih2.1]
          · have : m.score_0_1 * w ≤ w := by
              calc m.score_0_1 * w ≤ 1 * w := mul_le_mul_of_nonneg_right hm.2 hwh
                _ = w := one_mul w
            linarith [ih2.2]

/-- C8: for every terrain class and every combination of raw metric values,
compute_realism_score returns exactly ten per-metric records; the weights
are (0.12 hypsometric, 0.14 geomorphon, 0.12 drainage, 0.10 Hurst, 0.10
roughness-elevation, 0.10 Moran, 0.08 multifractal, 0.08 slope mode, 0.08
aspect, 0.08 TPI) and sum to 1; the total equals 100·Σ weight·score; every
per-metric score lies in [0,1] so the total lies in [0,100]; three metrics
carry the noise_synth subsystem tag and seven the hydraulic tag. -/
theorem realism_score_structure (raw : RawMetrics) (tc : TerrainClass) :
    (compute_realism_score raw tc).metrics.length = 10
      ∧ ((compute_realism_score raw tc).metrics.map (fun m => (m.name, m.subsystem))).zip
          score_weights
          = [(("hurst", "noise_synth"), W_HURST),
             (("roughness_elev", "noise_synth"), W_ROUGHNESS),
             (("multifractal", "noise_synth"), W_MULTIFRAC),
             (("slope_mode", "hydraulic"), W_SLOPE),
             (("aspect_circ_var", "hydraulic"), W_ASPECT),
             (("tpi_ratio", "hydraulic"), W_TPI),
             (("hypsometric", "hydraulic"), W_HYPS),
             (("geomorphon_l1", "hydraulic"), W_GEOMORPHON),
             (("drainage", "hydraulic"), W_DRAINAGE),
             (("morans_i", "hydraulic"), W_MORANS)]
      ∧ W_HYPS = 0.12 ∧ W_GEOMORPHON = 0.14 ∧ W_DRAINAGE = 0.12 ∧ W_HURST = 0.10
      ∧ W_ROUGHNESS = 0.10 ∧ W_MORANS = 0.10 ∧ W_MULTIFRAC = 0.08 ∧ W_SLOPE = 0.08
      ∧ W_ASPECT = 0.08 ∧ W_TPI = 0.08
      ∧ score_weights.sum = 1
      ∧ (compute_realism_score raw tc).total
          = 100 * (List.zipWith (fun m w => m.score_0_1 * w)
              (compute_realism_score raw tc).metrics score_weights).sum
      ∧ (∀ m ∈ (compute_realism_score raw tc).metrics,
          0 ≤ m.score_0_1 ∧ m.score_0_1 ≤ 1)
      ∧ 0 ≤ (compute_realism_score raw tc).total
      ∧ (compute_realism_score raw tc).total ≤ 100
      ∧ ((compute_realism_score raw tc).metrics.filter
          (fun m => m.subsystem == "noise_synth")).length = 3
      ∧ ((compute_realism_score raw tc).metrics.filter
          (fun m => m.subsystem == "hydraulic")).length = 7 := by
  have hscores : ∀ m ∈ (compute_realism_score raw tc).metrics,
      0 ≤ m.score_0_1 ∧ m.score_0_1 ≤ 1 := by
    intro m hm
    simp only [compute_realism_score, List.mem_cons, List.not_mem_nil, or_false] at hm
    rcases hm with rfl | rfl | rfl | rfl | rfl | rfl | rfl | rfl | rfl | rfl
    · simp only
      split_ifs
      · exact scale_neutral_bounds
      · exact band_score_bounds _ _
    · simp only
      exact band_score_bounds _ _
    · simp only
      split_ifs
      · exact scale_neutral_bounds
      · exact band_score_bounds _ _
    · simp only
      exact band_score_bounds _ _
    · simp only
      exact band_score_bounds _ _
    · simp only
      split_ifs
      · exact scale_neutral_bounds
      · exact band_score_bounds _ _
    · simp only
      exact band_score_bounds _ _
    · simp only
      split_ifs
      · exact scale_neutral_bounds
      · exact geomorphon_score_bounds _
    · simp only
      split_ifs
      · exact scale_neutral_bounds
      · exact band_score_bounds _ _
    · simp only
      exact band_score_bounds _ _
  have hwnn : ∀ w ∈ score_weights, (0 : ℚ) ≤ w := by
    intro w hw
    simp only [score_weights, List.mem_cons, List.not_mem_nil, or_false] at hw
    rcases hw with rfl | rfl | rfl | rfl | rfl | rfl | rfl | rfl | rfl | rfl <;>
      norm_num [W_HURST, W_ROUGHNESS, W_MULTIFRAC, W_SLOPE, W_ASPECT, W_TPI,
        W_HYPS, W_GEOMORPHON, W_DRAINAGE, W_MORANS]
  have hsum : score_weights.sum = 1 := by
    norm_num [score_weights, W_HURST, W_ROUGHNESS, W_MULTIFRAC, W_SLOPE, W_ASPECT,
      W_TPI, W_HYPS, W_GEOMORPHON, W_DRAINAGE, W_MORANS]
  have hzip := zipWith_weight_sum_bounds (compute_realism_score raw tc).metrics
    score_weights hscores hwnn
  have htotal : (compute_realism_score raw tc).total
      = (List.zipWith (fun m w => m.score_0_1 * w)
          (compute_realism_score raw tc).metrics score_weights).sum * 100 := by
    simp only [compute_realism_score]
  refine ⟨rfl, rfl,
    rfl, rfl, rfl, rfl, rfl, rfl, rfl, rfl, rfl, rfl, hsum, by rw [htotal]; ring,
    hscores, ?_, ?_, rfl, rfl⟩
  · rw [htotal]
    have := hzip.1
    linarith
  · rw [htotal]
    have := hzip.2
    rw [hsum] at this
    linarith

-- ── C7 ───────────────────────────────────────────────────────────────────

/-- C7: for every grid and mean-annual-precipitation field, the seasonality
value clamp((|lat|/90)^0.7 · (1 − 0.8·min(map/2500, 1)), 0, 1) is at most
0.2 at every cell whose precipitation exceeds 2500 mm/yr. -/
theorem seasonality_capped_when_wet (map_field : List ℚ) (W H r c : ℕ)
    (hr : r < H) (hc : c < W) (hlen : map_field.length = W * H)
    (hwet : 2500 < map_field.getD (r * W + c) 0) :
    (generate_seasonality map_field W H).getD (r * W + c) 0 ≤ 0.2 := by
  have hW : 0 < W := Nat.pos_of_ne_zero (by omega)
  have hH : 0 < H := Nat.pos_of_ne_zero (by omega)
  have hn : W * H ≠ 0 := by positivity
  have hne : map_field ≠ [] := by
    intro h
    rw [h] at hlen
    simp at hlen
    omega
  simp only [generate_seasonality, if_neg (by exact not_or.mpr ⟨hn, hne⟩)]
  rw [flatMap_range_map_getD _ W H r c hr hc]
  have hHQ : (0 : ℚ) < (H : ℚ) := by exact_mod_cast hH
  -- The latitude factor lies in [0, 1].
  have habs : |90 - ((r : ℚ) + 0.5) / (H : ℚ) * 180| / 90 ≤ 1 := by
    have hr1 : (r : ℚ) + 1 ≤ (H : ℚ) := by exact_mod_cast hr
    have hdiv0 : 0 ≤ ((r : ℚ) + 0.5) / (H : ℚ) := by positivity
    have hdiv1 : ((r : ℚ) + 0.5) / (H : ℚ) ≤ 1 := by
      rw [div_le_one hHQ]; linarith
    rw [div_le_one (by norm_num : (0:ℚ) < 90), abs_le]
    constructor <;> nlinarith
  have habs0 : (0 : ℚ) ≤ |90 - ((r : ℚ) + 0.5) / (H : ℚ) * 180| / 90 := by positivity
  have hpow0 : (0 : ℝ) ≤ ((|90 - ((r : ℚ) + 0.5) / (H : ℚ) * 180| / 90 : ℚ) : ℝ) ^ (0.7 : ℝ) :=
    Real.rpow_nonneg (by exact_mod_cast habs0) _
  have hpow1 : ((|90 - ((r : ℚ) + 0.5) / (H : ℚ) * 180| / 90 : ℚ) : ℝ) ^ (0.7 : ℝ) ≤ 1 :=
    Real.rpow_le_one (by exact_mod_cast habs0) (by exact_mod_cast habs) (by norm_num)
  -- The damping factor equals 0.2 on wet cells.
  have hratio : min (map_field.getD (r * W + c) 0 / 2500) 1 = 1 := by
    have : (1 : ℚ) ≤ map_field.getD (r * W + c) 0 / 2500 := by
      rw [le_div_iff₀ (by norm_num : (0:ℚ) < 2500)]; linarith
    exact min_eq_right this
  rw [hratio]
  have hdampen : ((1 - 1 * 0.80 : ℚ) : ℝ) = 0.2 := by norm_num
  rw [hdampen]
  -- clamp(x·0.2, 0, 1) ≤ 0.2.
  unfold clampR
  refine max_le (by norm_num) (le_trans (min_le_left _ _) ?_)
  calc ((|90 - ((r : ℚ) + 0.5) / (H : ℚ) * 180| / 90 : ℚ) : ℝ) ^ (0.7 : ℝ) * 0.2
      ≤ 1 * 0.2 := by nlinarith
    _ = 0.2 := one_mul _

/-- Witness for the C7 theorem on a 1×1 grid with 3000 mm/yr precipitation. -/
theorem seasonality_capped_when_wet_witness :
    (generate_seasonality [3000] 1 1).getD 0 0 ≤ 0.2 :=
  seasonality_capped_when_wet [3000] 1 1 0 0 (by decide) (by decide) rfl
    (by norm_num)


-- ── C9 helper lemmas ─────────────────────────────────────────────────────

-- Facts about the optional-minimum and optional-maximum folds.

lemma foldl_optmin_some {α : Type} [LinearOrder α] :
    ∀ (l : List α) (a : α),
      l.foldl (fun acc v => some (acc.elim v (fun m => min m v))) (some a)
        = some (l.foldl min a) := by
  intro l
  induction l with
  | nil => intro a; rfl
  | cons x xs ih => intro a; simpa using ih (min a x)

lemma foldl_min_le_acc {α : Type} [LinearOrder α] :
    ∀ (l : List α) (a : α), l.foldl min a ≤ a := by
  intro l
  induction l with
  | nil => intro a; exact le_refl a
  | cons x xs ih =>
      intro a
      exact le_trans (ih (min a x)) (min_le_left a x)

lemma foldl_min_le_mem {α : Type} [LinearOrder α] :
    ∀ (l : List α) (a x : α), x ∈ l → l.foldl min a ≤ x := by
  intro l
  induction l with
  | nil => intro a x hx; exact absurd hx (List.not_mem_nil x)
  | cons y ys ih =>
      intro a x hx
      rcases List.mem_cons.mp hx with rfl | hx2
      · exact le_trans (foldl_min_le_acc ys (min a x)) (min_le_right a x)
      · exact ih (min a y) x hx2

lemma foldl_min_cases {α : Type} [LinearOrder α] :
    ∀ (l : List α) (a : α), l.foldl min a = a ∨ l.foldl min a ∈ l := by
  intro l
  induction l with
  | nil => intro a; exact Or.inl rfl
  | cons x xs ih =>
      intro a
      rcases ih (min a x) with h | h
      · rcases min_choice a x with h2 | h2
        · exact Or.inl (by rw [List.foldl_cons, h, h2])
        · exact Or.inr (by rw [List.foldl_cons, h, h2]; exact List.mem_cons_self x xs)
      · exact Or.inr (List.mem_cons_of_mem x (by rw [List.foldl_cons]; exact h))

lemma optmin_fold_eq {α : Type} [LinearOrder α] (l : List α) (m : α)
    (hmem : m ∈ l) (hlb : ∀ x ∈ l, m ≤ x) :
    l.foldl (fun acc v => some (acc.elim v (fun mm => min mm v))) none = some m := by
  cases l with
  | nil => exact absurd hmem (List.not_mem_nil m)
  | cons x xs =>
      rw [List.foldl_cons]
      show List.foldl (fun acc v => some (acc.elim v (fun mm => min mm v))) (some x) xs
        = some m
      rw [foldl_optmin_some xs x]
      congr 1
      refine le_antisymm ?_ ?_
      · rcases List.mem_cons.mp hmem with rfl | hm2
        · exact foldl_min_le_acc xs m
        · exact foldl_min_le_mem xs x m hm2
      · rcases foldl_min_cases xs x with h | h
        · rw [h]; exact hlb x (List.mem_cons_self x xs)
        · exact hlb _ (List.mem_cons_of_mem x h)

lemma foldl_optmax_some {α : Type} [LinearOrder α] :
    ∀ (l : List α) (a : α),
      l.foldl (fun acc v => some (acc.elim v (fun m => max m v))) (some a)
        = some (l.foldl max a) := by
  intro l
  induction l with
  | nil => intro a; rfl
  | cons x xs ih => intro a; simpa using ih (max a x)

lemma foldl_max_ge_acc {α : Type} [LinearOrder α] :
    ∀ (l : List α) (a : α), a ≤ l.foldl max a := by
  intro l
  induction l with
  | nil => intro a; exact le_refl a
  | cons x xs ih =>
      intro a
      exact le_trans (le_max_left a x) (ih (max a x))

lemma foldl_max_ge_mem {α : Type} [LinearOrder α] :
    ∀ (l : List α) (a x : α), x ∈ l → x ≤ l.foldl max a := by
  intro l
  induction l with
  | nil => intro a x hx; exact absurd hx (List.not_mem_nil x)
  | cons y ys ih =>
      intro a x hx
      rcases List.mem_cons.mp hx with rfl | hx2
      · exact le_trans (le_max_right a x) (foldl_max_ge_acc ys (max a x))
      · exact ih (max a y) x hx2

lemma foldl_max_cases {α : Type} [LinearOrder α] :
    ∀ (l : List α) (a : α), l.foldl max a = a ∨ l.foldl max a ∈ l := by
  intro l
  induction l with
  | nil => intro a; exact Or.inl rfl
  | cons x xs ih =>
      intro a
      rcases ih (max a x) with h | h
      · rcases max_choice a x with h2 | h2
        · exact Or.inl (by rw [List.foldl_cons, h, h2])
        · exact Or.inr (by rw [List.foldl_cons, h, h2]; exact List.mem_cons_self x xs)
      · exact Or.inr (List.mem_cons_of_mem x (by rw [List.foldl_cons]; exact h))

lemma optmax_fold_eq {α : Type} [LinearOrder α] (l : List α) (m : α)
    (hmem : m ∈ l) (hub : ∀ x ∈ l, x ≤ m) :
    l.foldl (fun acc v => some (acc.elim v (fun mm => max mm v))) none = some m := by
  cases l with
  | nil => exact absurd hmem (List.not_mem_nil m)
  | cons x xs =>
      rw [List.foldl_cons]
      show List.foldl (fun acc v => some (acc.elim v (fun mm => max mm v))) (some x) xs
        = some m
      rw [foldl_optmax_some xs x]
      congr 1
      refine le_antisymm ?_ ?_
      · rcases foldl_max_cases xs x with h | h
        · rw [h]; exact hub x (List.mem_cons_self x xs)
        · exact hub _ (List.mem_cons_of_mem x h)
      · rcases List.mem_cons.mp hmem with rfl | hm2
        · exact foldl_max_ge_acc xs m
        · exact foldl_max_ge_mem xs x m hm2

-- Facts about the fold of per-rank writes used by the shaping loop.

lemma foldl_set_length {α : Type} (f : ℕ × ℕ → α) :
    ∀ (ps : List (ℕ × ℕ)) (init : List α),
      (ps.foldl (fun nd ri => nd.set ri.2 (f ri)) init).length = init.length := by
  intro ps
  induction ps with
  | nil => intro init; rfl
  | cons q qs ih =>
      intro init
      rw [List.foldl_cons, ih, List.length_set]

lemma foldl_set_getElem_of_not_mem {α : Type} (f : ℕ × ℕ → α) :
    ∀ (ps : List (ℕ × ℕ)) (init : List α) (j : ℕ), (∀ p ∈ ps, p.2 ≠ j) →
      (ps.foldl (fun nd ri => nd.set ri.2 (f ri)) init)[j]? = init[j]? := by
  intro ps
  induction ps with
  | nil => intro init j _; rfl
  | cons q qs ih =>
      intro init j hno
      rw [List.foldl_cons, ih _ j (fun p hp => hno p (List.mem_cons_of_mem q hp)),
        List.getElem?_set_ne (hno q (List.mem_cons_self q qs))]

lemma foldl_set_getElem {α : Type} (f : ℕ × ℕ → α) :
    ∀ (ps : List (ℕ × ℕ)) (init : List α) (rank j : ℕ),
      (ps.map Prod.snd).Nodup → (rank, j) ∈ ps → j < init.length →
      (ps.foldl (fun nd ri => nd.set ri.2 (f ri)) init)[j]? = some (f (rank, j)) := by
  intro ps
  induction ps with
  | nil => intro init rank j _ hmem; exact absurd hmem (List.not_mem_nil _)
  | cons q qs ih =>
      intro init rank j hnd hmem hj
      rw [List.map_cons, List.nodup_cons] at hnd
      rcases List.mem_cons.mp hmem with rfl | hmem2
      · rw [List.foldl_cons]
        rw [foldl_set_getElem_of_not_mem]
        · exact List.getElem?_set_self (by simpa using hj)
        · intro p hp hpj
          exact hnd.1 (List.mem_map.mpr ⟨p, hp, hpj⟩)
      · rw [List.foldl_cons]
        exact ih _ rank j hnd.2 hmem2 (by simpa [List.length_set] using hj)

-- Facts about the sorting pass.

lemma shapeOrder_length (data : List ℚ) : (shapeOrder data).length = data.length := by
  simp [shapeOrder, List.length_mergeSort, List.length_range]

lemma shapeOrder_perm (data : List ℚ) :
    (shapeOrder data).Perm (List.range data.length) :=
  List.mergeSort_perm _ _

lemma shapeOrder_nodup (data : List ℚ) : (shapeOrder data).Nodup :=
  ((shapeOrder_perm data).symm).nodup (List.nodup_range _)

lemma shapeOrder_mem (data : List ℚ) (j : ℕ) (hj : j < data.length) :
    j ∈ shapeOrder data :=
  (shapeOrder_perm data).mem_iff.mpr (List.mem_range.mpr hj)

lemma shapeOrder_mem_lt (data : List ℚ) (j : ℕ) (hj : j ∈ shapeOrder data) :
    j < data.length :=
  List.mem_range.mp ((shapeOrder_perm data).mem_iff.mp hj)

lemma shapeOrder_sorted (data : List ℚ) (i j : ℕ)
    (hi : i < (shapeOrder data).length) (hj : j < (shapeOrder data).length)
    (hij : i < j) :
    data.getD ((shapeOrder data).get ⟨i, hi⟩) 0
      ≤ data.getD ((shapeOrder data).get ⟨j, hj⟩) 0 := by
  have hp := @List.sorted_mergeSort ℕ
    (fun a b => decide (data.getD a 0 ≤ data.getD b 0))
    (fun a b c hab hbc => by
      simp only [decide_eq_true_eq] at hab hbc ⊢
      exact le_trans hab hbc)
    (fun a b => by
      simp only [Bool.or_eq_true, decide_eq_true_eq]
      exact le_total _ _)
    (List.range data.length)
  have := (List.pairwise_iff_getElem.mp hp) i j
    (by simpa [shapeOrder] using hi) (by simpa [shapeOrder] using hj) hij
  simpa [shapeOrder] using this

-- Facts about the write pass.

lemma shapeOut_length (data : List ℚ) (gamma mn range : ℚ) :
    (shapeOut data gamma mn range).length = data.length := by
  unfold shapeOut
  rw [foldl_set_length (fun ri =>
    (mn : ℝ) + ((((ri.1 : ℚ) / ((data.length - 1 : ℕ) : ℚ) : ℚ) : ℝ) ^ ((gamma : ℚ) : ℝ))
      * ((range : ℚ) : ℝ))]
  exact List.length_replicate _ _

lemma shapeOut_getElem (data : List ℚ) (gamma mn range : ℚ) (k : ℕ)
    (hk : k < (shapeOrder data).length) :
    (shapeOut data gamma mn range)[(shapeOrder data).get ⟨k, hk⟩]?
      = some ((mn : ℝ)
          + ((((k : ℚ) / ((data.length - 1 : ℕ) : ℚ) : ℚ) : ℝ) ^ ((gamma : ℚ) : ℝ))
            * ((range : ℚ) : ℝ)) := by
  unfold shapeOut
  exact foldl_set_getElem
    (fun ri => (mn : ℝ)
      + ((((ri.1 : ℚ) / ((data.length - 1 : ℕ) : ℚ) : ℚ) : ℝ) ^ ((gamma : ℚ) : ℝ))
        * ((range : ℚ) : ℝ))
    (shapeOrder data).enum (List.replicate data.length (0 : ℝ))
    k ((shapeOrder data).get ⟨k, hk⟩)
    (by rw [List.enum_map_snd]; exact shapeOrder_nodup data)
    (by
      rw [List.mem_enum_iff_getElem?]
      simp [List.getElem?_eq_getElem hk])
    (by
      rw [List.length_replicate]
      exact shapeOrder_mem_lt data _ (List.get_mem _ _ hk))


-- Core properties of the write pass: monotonicity in rank and the envelope.

lemma shapeOut_props (data : List ℚ) (γ mn rng : ℚ)
    (hn2 : 2 ≤ data.length) (hγ : (1/10 : ℚ) ≤ γ) (hrng : 1 ≤ rng) :
    (∀ a b, a < data.length → b < data.length →
        data.getD a 0 < data.getD b 0 →
        (shapeOut data γ mn rng).getD a 0 ≤ (shapeOut data γ mn rng).getD b 0)
    ∧ minElevR (shapeOut data γ mn rng) = some ((mn : ℚ) : ℝ)
    ∧ maxElevR (shapeOut data γ mn rng) = some (((mn + rng : ℚ) : ℚ) : ℝ) := by
  have hd : (0 : ℚ) < ((data.length - 1 : ℕ) : ℚ) := by
    exact_mod_cast Nat.pos_of_ne_zero (by omega)
  have hγQ : (0 : ℚ) < γ := lt_of_lt_of_le (by norm_num) hγ
  have hγR : (0 : ℝ) < ((γ : ℚ) : ℝ) := by exact_mod_cast hγQ
  have hrngR : (0 : ℝ) ≤ ((rng : ℚ) : ℝ) := by
    have : (0 : ℚ) ≤ rng := le_trans zero_le_one hrng
    exact_mod_cast this
  have hp0 : ∀ k : ℕ, (0 : ℝ) ≤ (((k : ℚ) / ((data.length - 1 : ℕ) : ℚ) : ℚ) : ℝ) := by
    intro k
    have : (0 : ℚ) ≤ (k : ℚ) / ((data.length - 1 : ℕ) : ℚ) := by positivity
    exact_mod_cast this
  have hp1 : ∀ k : ℕ, k ≤ data.length - 1 →
      (((k : ℚ) / ((data.length - 1 : ℕ) : ℚ) : ℚ) : ℝ) ≤ 1 := by
    intro k hk
    have hkq : (k : ℚ) ≤ ((data.length - 1 : ℕ) : ℚ) := by exact_mod_cast hk
    have : (k : ℚ) / ((data.length - 1 : ℕ) : ℚ) ≤ 1 := by
      rw [div_le_one hd]; exact hkq
    exact_mod_cast this
  have hvlb : ∀ k : ℕ, ((mn : ℚ) : ℝ)
      ≤ (mn : ℝ) + ((((k : ℚ) / ((data.length - 1 : ℕ) : ℚ) : ℚ) : ℝ) ^ ((γ : ℚ) : ℝ))
          * ((rng : ℚ) : ℝ) := by
    intro k
    have h1 : (0 : ℝ) ≤ (((k : ℚ) / ((data.length - 1 : ℕ) : ℚ) : ℚ) : ℝ) ^ ((γ : ℚ) : ℝ) :=
      Real.rpow_nonneg (hp0 k) _
    nlinarith
  have hvub : ∀ k : ℕ, k ≤ data.length - 1 →
      (mn : ℝ) + ((((k : ℚ) / ((data.length - 1 : ℕ) : ℚ) : ℚ) : ℝ) ^ ((γ : ℚ) : ℝ))
          * ((rng : ℚ) : ℝ)
        ≤ ((mn + rng : ℚ) : ℝ) := by
    intro k hk
    have h1 : (((k : ℚ) / ((data.length - 1 : ℕ) : ℚ) : ℚ) : ℝ) ^ ((γ : ℚ) : ℝ) ≤ 1 :=
      Real.rpow_le_one (hp0 k) (hp1 k hk) (le_of_lt hγR)
    push_cast at h1 ⊢
    nlinarith
  have hvmono : ∀ k k' : ℕ, k ≤ k' →
      (mn : ℝ) + ((((k : ℚ) / ((data.length - 1 : ℕ) : ℚ) : ℚ) : ℝ) ^ ((γ : ℚ) : ℝ))
          * ((rng : ℚ) : ℝ)
        ≤ (mn : ℝ) + ((((k' : ℚ) / ((data.length - 1 : ℕ) : ℚ) : ℚ) : ℝ) ^ ((γ : ℚ) : ℝ))
            * ((rng : ℚ) : ℝ) := by
    intro k k' hkk
    have hpq : ((k : ℚ) / ((data.length - 1 : ℕ) : ℚ))
        ≤ ((k' : ℚ) / ((data.length - 1 : ℕ) : ℚ)) := by
      gcongr
    have hpow : (((k : ℚ) / ((data.length - 1 : ℕ) : ℚ) : ℚ) : ℝ) ^ ((γ : ℚ) : ℝ)
        ≤ (((k' : ℚ) / ((data.length - 1 : ℕ) : ℚ) : ℚ) : ℝ) ^ ((γ : ℚ) : ℝ) :=
      Real.rpow_le_rpow (hp0 k) (by exact_mod_cast hpq) (le_of_lt hγR)
    nlinarith
  have hval0 : (mn : ℝ) + ((((0 : ℕ) : ℚ) / ((data.length - 1 : ℕ) : ℚ) : ℚ) : ℝ) ^ ((γ : ℚ) : ℝ)
      * ((rng : ℚ) : ℝ) = ((mn : ℚ) : ℝ) := by
    have hz : ((((0 : ℕ) : ℚ) / ((data.length - 1 : ℕ) : ℚ) : ℚ) : ℝ) = 0 := by
      push_cast
      simp
    rw [hz, Real.zero_rpow (ne_of_gt hγR)]
    ring
  have hvaltop : (mn : ℝ)
      + ((((data.length - 1 : ℕ) : ℚ) / ((data.length - 1 : ℕ) : ℚ) : ℚ) : ℝ) ^ ((γ : ℚ) : ℝ)
        * ((rng : ℚ) : ℝ) = ((mn + rng : ℚ) : ℝ) := by
    have hone : ((((data.length - 1 : ℕ) : ℚ) / ((data.length - 1 : ℕ) : ℚ) : ℚ) : ℝ) = 1 := by
      rw [div_self (ne_of_gt hd)]
      norm_num
    rw [hone, Real.one_rpow]
    push_cast
    ring
  -- Per-position description of the output.
  have hout_at : ∀ j, j < data.length → ∃ k, k < (shapeOrder data).length ∧
      (shapeOut data γ mn rng)[j]?
        = some ((mn : ℝ)
            + ((((k : ℚ) / ((data.length - 1 : ℕ) : ℚ) : ℚ) : ℝ) ^ ((γ : ℚ) : ℝ))
              * ((rng : ℚ) : ℝ)) := by
    intro j hj
    obtain ⟨⟨k, hk⟩, hkj⟩ := List.mem_iff_get.mp (shapeOrder_mem data j hj)
    refine ⟨k, hk, ?_⟩
    rw [← hkj]
    exact shapeOut_getElem data γ mn rng k hk
  have hlen_out : (shapeOut data γ mn rng).length = data.length :=
    shapeOut_length data γ mn rng
  -- Every output entry lies in [mn, mn + rng].
  have hmem_bounds : ∀ x ∈ shapeOut data γ mn rng,
      ((mn : ℚ) : ℝ) ≤ x ∧ x ≤ ((mn + rng : ℚ) : ℝ) := by
    intro x hx
    obtain ⟨⟨j, hj⟩, hjx⟩ := List.mem_iff_get.mp hx
    have hjlt : j < data.length := by rw [← hlen_out]; exact hj
    obtain ⟨k, hk, hkeq⟩ := hout_at j hjlt
    have hxval : (shapeOut data γ mn rng)[j]? = some x := by
      rw [← hjx]
      exact List.getElem?_eq_getElem hj
    rw [hxval] at hkeq
    have hxe := (Option.some_inj.mp hkeq)
    have hkle : k ≤ data.length - 1 := by
      have := hk
      rw [shapeOrder_length] at this
      omega
    constructor
    · rw [hxe]; exact hvlb k
    · rw [hxe]; exact hvub k hkle
  refine ⟨?_, ?_, ?_⟩
  · -- monotone in input elevation
    intro a b ha hb hab
    obtain ⟨⟨ka, hka⟩, hkaj⟩ := List.mem_iff_get.mp (shapeOrder_mem data a ha)
    obtain ⟨⟨kb, hkb⟩, hkbj⟩ := List.mem_iff_get.mp (shapeOrder_mem data b hb)
    have hka_lt_kb : ka < kb := by
      rcases lt_trichotomy ka kb with h | h | h
      · exact h
      · exfalso
        subst h
        have hab2 : a = b := by rw [← hkaj, ← hkbj]
        rw [hab2] at hab
        exact lt_irrefl _ hab
      · exfalso
        have := shapeOrder_sorted data kb ka hkb hka h
        rw [hkaj, hkbj] at this
        exact absurd hab (not_lt.mpr this)
    have hva := shapeOut_getElem data γ mn rng ka hka
    have hvb := shapeOut_getElem data γ mn rng kb hkb
    rw [hkaj] at hva
    rw [hkbj] at hvb
    rw [List.getD_eq_getElem?_getD, hva, List.getD_eq_getElem?_getD, hvb]
    simpa using hvmono ka kb (le_of_lt hka_lt_kb)
  · -- minimum preserved
    have hzero_lt : 0 < (shapeOrder data).length := by
      rw [shapeOrder_length]; omega
    have h0 := shapeOut_getElem data γ mn rng 0 hzero_lt
    rw [hval0] at h0
    have hmem : ((mn : ℚ) : ℝ) ∈ shapeOut data γ mn rng :=
      List.mem_iff_getElem?.mpr ⟨_, h0⟩
    show (shapeOut data γ mn rng).foldl
      (fun acc v => some (acc.elim v (fun m => min m v))) none = some ((mn : ℚ) : ℝ)
    exact optmin_fold_eq _ _ hmem (fun x hx => (hmem_bounds x hx).1)
  · -- maximum preserved
    have htop_lt : data.length - 1 < (shapeOrder data).length := by
      rw [shapeOrder_length]; omega
    have htop := shapeOut_getElem data γ mn rng (data.length - 1) htop_lt
    rw [hvaltop] at htop
    have hmem : ((mn + rng : ℚ) : ℝ) ∈ shapeOut data γ mn rng :=
      List.mem_iff_getElem?.mpr ⟨_, htop⟩
    show (shapeOut data γ mn rng).foldl
      (fun acc v => some (acc.elim v (fun m => max m v))) none = some ((mn + rng : ℚ) : ℝ)
    exact optmax_fold_eq _ _ hmem (fun x hx => (hmem_bounds x hx).2)


-- ── C9 ───────────────────────────────────────────────────────────────────

/-- C9: for every heightfield with elevation range at least 1 m and every
target hypsometric integral, hypsometric shaping is a monotone per-cell
transform (a cell with strictly lower input elevation never ends above a
cell with higher input elevation) and leaves the minimum and maximum
elevation of the field unchanged. -/
theorem hyps_shaping_monotone_envelope (hf : HeightField) (target_hi : ℚ)
    (hrange : 1 ≤ (maxElev hf.data).getD 0 - (minElev hf.data).getD 0) :
    (∀ a b, a < hf.data.length → b < hf.data.length →
        hf.data.getD a 0 < hf.data.getD b 0 →
        (apply_hypsometric_shaping hf target_hi).getD a 0
          ≤ (apply_hypsometric_shaping hf target_hi).getD b 0)
    ∧ minElevR (apply_hypsometric_shaping hf target_hi)
        = some (((minElev hf.data).getD 0 : ℚ) : ℝ)
    ∧ maxElevR (apply_hypsometric_shaping hf target_hi)
        = some (((maxElev hf.data).getD 0 : ℚ) : ℝ) := by
  have hne : hf.data ≠ [] := by
    intro h
    rw [h] at hrange
    norm_num [minElev, maxElev] at hrange
  have hn0 : hf.data.length ≠ 0 := by
    simpa [List.length_eq_zero] using hne
  have hn2 : 2 ≤ hf.data.length := by
    rcases Nat.lt_or_ge hf.data.length 2 with h | h
    · exfalso
      have h1 : hf.data.length = 1 := by omega
      obtain ⟨v, hv⟩ := List.length_eq_one.mp h1
      rw [hv] at hrange
      norm_num [minElev, maxElev] at hrange
    · exact h
  have hshape : apply_hypsometric_shaping hf target_hi
      = shapeOut hf.data (max (1 / clampQ target_hi 0.05 0.95 - 1) 0.1)
          ((minElev hf.data).getD 0)
          ((maxElev hf.data).getD 0 - (minElev hf.data).getD 0) := by
    simp only [apply_hypsometric_shaping]
    rw [if_neg hn0, if_neg (not_lt.mpr hrange)]
  have hγ : (1/10 : ℚ) ≤ max (1 / clampQ target_hi 0.05 0.95 - 1) 0.1 :=
    le_trans (by norm_num) (le_max_right _ _)
  have hp := shapeOut_props hf.data
      (max (1 / clampQ target_hi 0.05 0.95 - 1) 0.1)
      ((minElev hf.data).getD 0)
      ((maxElev hf.data).getD 0 - (minElev hf.data).getD 0) hn2 hγ hrange
  rw [hshape]
  refine ⟨hp.1, hp.2.1, ?_⟩
  rw [hp.2.2]
  congr 1
  push_cast
  ring

/-- Witness for the C9 theorem: a 2×1 heightfield with elevations 0 and 2
keeps its minimum 0 and maximum 2 under shaping toward target HI 0.4. -/
theorem hyps_shaping_monotone_envelope_witness :
    minElevR (apply_hypsometric_shaping ⟨[0, 2], 2, 1, 0, 1, 0, 1⟩ 0.4)
        = some ((0 : ℝ))
    ∧ maxElevR (apply_hypsometric_shaping ⟨[0, 2], 2, 1, 0, 1, 0, 1⟩ 0.4)
        = some ((2 : ℝ)) := by
  have h := hyps_shaping_monotone_envelope ⟨[0, 2], 2, 1, 0, 1, 0, 1⟩ 0.4
    (by norm_num [minElev, maxElev, Option.elim])
  refine ⟨?_, ?_⟩
  · rw [h.2.1]
    norm_num [minElev, Option.elim]
  · rw [h.2.2]
    norm_num [maxElev, Option.elim]


-- ── C10: priority-flood helper lemmas ────────────────────────────────────

lemma foldl_preserves {σ α : Type} (P : σ → Prop) (f : σ → α → σ)
    (h : ∀ s a, P s → P (f s a)) :
    ∀ (l : List α) (s : σ), P s → P (l.foldl f s) := by
  intro l
  induction l with
  | nil => intro s hs; exact hs
  | cons x xs ih => intro s hs; exact ih (f s x) (h s x hs)

lemma foldl_preserves_mem {σ α : Type} (P : σ → Prop) (f : σ → α → σ) :
    ∀ (l : List α), (∀ s a, a ∈ l → P s → P (f s a)) →
      ∀ s, P s → P (l.foldl f s) := by
  intro l
  induction l with
  | nil => intro _ s hs; exact hs
  | cons x xs ih =>
      intro h s hs
      exact ih (fun s a ha hp => h s a (List.mem_cons_of_mem x ha) hp)
        (f s x) (h s x (List.mem_cons_self x xs) hs)

lemma getD_set_ne {α : Type} (l : List α) (i j : ℕ) (x d : α)
    (h : i ≠ j) : (l.set i x).getD j d = l.getD j d := by
  rw [List.getD_eq_getElem?_getD, List.getElem?_set_ne h, ← List.getD_eq_getElem?_getD]

lemma getD_set_self_of_lt {α : Type} (l : List α) (i : ℕ) (x d : α)
    (h : i < l.length) : (l.set i x).getD i d = x := by
  rw [List.getD_eq_getElem?_getD, List.getElem?_set_self h]
  rfl

lemma getD_set_le (l : List ℚ) (j : ℕ) (x : ℚ) (hx : l.getD j 0 ≤ x) (k : ℕ) :
    l.getD k 0 ≤ (l.set j x).getD k 0 := by
  rcases eq_or_ne j k with rfl | hne
  · rcases Nat.lt_or_ge j l.length with hlt | hge
    · rw [getD_set_self_of_lt l j x 0 hlt]
      exact hx
    · rw [List.set_eq_of_length_le hge]
  · rw [getD_set_ne l j k x 0 hne]

lemma getD_bool_set_true (v : List Bool) (j e : ℕ) (h : v.getD e false = true) :
    (v.set j true).getD e false = true := by
  rcases eq_or_ne j e with rfl | hne
  · rcases Nat.lt_or_ge j v.length with hlt | hge
    · exact getD_set_self_of_lt v j true false hlt
    · rw [List.set_eq_of_length_le hge]
      exact h
  · rw [getD_set_ne v j e true false hne]
    exact h

lemma foldl_setTrue_stays (l : List ℕ) (v : List Bool) (j : ℕ)
    (hj : v.getD j false = true) :
    (l.foldl (fun v i => v.set i true) v).getD j false = true := by
  induction l generalizing v with
  | nil => exact hj
  | cons i is ih => exact ih (v.set i true) (getD_bool_set_true v i j hj)

lemma foldl_setTrue_mem (l : List ℕ) (v : List Bool) (j : ℕ)
    (hjlen : j < v.length) (hjl : j ∈ l) :
    (l.foldl (fun v i => v.set i true) v).getD j false = true := by
  induction l generalizing v with
  | nil => exact absurd hjl (List.not_mem_nil j)
  | cons i is ih =>
      rcases eq_or_ne i j with rfl | hne
      · exact foldl_setTrue_stays is (v.set i true) i
          (getD_set_self_of_lt v i true false hjlen)
      · rcases List.mem_cons.mp hjl with rfl | hj2
        · exact absurd rfl hne.symm
        · exact ih (v.set i true) (by simpa [List.length_set] using hjlen) hj2

/-- The flood invariant: filled keeps its length, only rises pointwise, and
edge cells stay visited with their original elevation. -/
def FloodInv (rows cols : ℕ) (init : List ℚ) (st : FloodState) : Prop :=
  st.filled.length = init.length
  ∧ (∀ k, init.getD k 0 ≤ st.filled.getD k 0)
  ∧ (∀ j, j < rows * cols →
      (j / cols = 0 ∨ j / cols = rows - 1 ∨ j % cols = 0 ∨ j % cols = cols - 1) →
      st.visited.getD j false = true)
  ∧ (∀ j, j < rows * cols →
      (j / cols = 0 ∨ j / cols = rows - 1 ∨ j % cols = 0 ∨ j % cols = cols - 1) →
      st.filled.getD j 0 = init.getD j 0)

lemma floodStep_preserves (rows cols : ℕ) (init : List ℚ) (i : ℕ) (elev : ℚ)
    (s : FloodState) (od : ℤ × ℤ) (hP : FloodInv rows cols init s) :
    FloodInv rows cols init (floodStep rows cols i elev s od) := by
  obtain ⟨p1, p2, p3, p4⟩ := hP
  unfold floodStep
  simp only []
  split_ifs with hbound hvis hraise
  · exact ⟨p1, p2, p3, p4⟩
  · exact ⟨p1, p2, p3, p4⟩
  · -- unvisited neighbour whose elevation is raised to elev
    refine ⟨?_, ?_, ?_, ?_⟩
    · rw [List.length_set]
      exact p1
    · intro k
      exact le_trans (p2 k) (getD_set_le s.filled _ elev (le_of_lt hraise) k)
    · intro e hen hedge
      exact getD_bool_set_true s.visited _ e (p3 e hen hedge)
    · intro e hen hedge
      have hjne : ((((i / cols : ℕ) : ℤ) + od.1).toNat * cols
          + (((i % cols : ℕ) : ℤ) + od.2).toNat) ≠ e := by
        intro hjeq
        rw [hjeq] at hvis
        exact hvis (p3 e hen hedge)
      rw [getD_set_ne s.filled _ e elev 0 hjne]
      exact p4 e hen hedge
  · -- unvisited neighbour already at least at elev: filled unchanged
    exact ⟨p1, p2,
      fun e hen hedge => getD_bool_set_true s.visited _ e (p3 e hen hedge),
      fun e hen hedge => p4 e hen hedge⟩

lemma floodNeighbors_preserves (rows cols : ℕ) (init : List ℚ) (i : ℕ)
    (elev : ℚ) (st : FloodState) (hP : FloodInv rows cols init st) :
    FloodInv rows cols init (floodNeighbors rows cols i elev st) := by
  unfold floodNeighbors
  exact foldl_preserves (FloodInv rows cols init) (floodStep rows cols i elev)
    (fun s od => floodStep_preserves rows cols init i elev s od)
    D8_OFFSETS st hP

lemma floodLoop_preserves (rows cols : ℕ) (init : List ℚ) :
    ∀ (fuel : ℕ) (st : FloodState), FloodInv rows cols init st →
      FloodInv rows cols init (floodLoop rows cols fuel st) := by
  intro fuel
  induction fuel with
  | zero => intro st h; exact h
  | succ f ih =>
      intro st h
      rw [floodLoop]
      cases hpop : popMin st.heap with
      | none => exact h
      | some pr =>
          obtain ⟨⟨elev, i⟩, rest⟩ := pr
          exact ih _ (floodNeighbors_preserves rows cols init i elev
            { st with heap := rest }
            ⟨h.1, h.2.1, h.2.2.1, h.2.2.2⟩)

/-- C10: priority-flood pit filling returns a vector of the same length as
the input in which every cell is at least its input elevation; every
raster-edge cell keeps exactly its input elevation. -/
theorem priority_flood_monotone_and_edges (hf : HeightField) (r c : ℕ)
    (hr : r < hf.height) (hc : c < hf.width) :
    (priority_flood hf).length = hf.data.length
    ∧ hf.data.getD (r * hf.width + c) 0
        ≤ (priority_flood hf).getD (r * hf.width + c) 0
    ∧ ((r = 0 ∨ r = hf.height - 1 ∨ c = 0 ∨ c = hf.width - 1) →
        (priority_flood hf).getD (r * hf.width + c) 0
          = hf.data.getD (r * hf.width + c) 0) := by
  have hcpos : 0 < hf.width := by omega
  have hjdiv : (r * hf.width + c) / hf.width = r := by
    rw [Nat.add_comm, Nat.add_mul_div_right c r hcpos, Nat.div_eq_of_lt hc]
    omega
  have hjmod : (r * hf.width + c) % hf.width = c := by
    rw [Nat.add_comm, Nat.add_mul_mod_self_right, Nat.mod_eq_of_lt hc]
  have hjn : r * hf.width + c < hf.height * hf.width := by
    calc r * hf.width + c < r * hf.width + hf.width := by omega
      _ = (r + 1) * hf.width := by ring
      _ ≤ hf.height * hf.width := Nat.mul_le_mul_right _ (by omega)
  have hedge_seed : ∀ j, j < hf.height * hf.width →
      (j / hf.width = 0 ∨ j / hf.width = hf.height - 1
        ∨ j % hf.width = 0 ∨ j % hf.width = hf.width - 1) →
      ((floodSeeds hf.height hf.width).foldl (fun v i => v.set i true)
        (List.replicate (hf.height * hf.width) false)).getD j false = true := by
    intro j hjlt hedge
    apply foldl_setTrue_mem
    · rw [List.length_replicate]
      exact hjlt
    · unfold floodSeeds
      rw [List.mem_flatMap]
      refine ⟨j / hf.width, List.mem_range.mpr ?_, ?_⟩
      · exact (Nat.div_lt_iff_lt_mul hcpos).mpr (by omega)
      · rw [List.mem_filterMap]
        refine ⟨j % hf.width, List.mem_range.mpr (Nat.mod_lt j hcpos), ?_⟩
        rw [if_pos hedge]
        congr 1
        rw [Nat.mul_comm]
        exact Nat.div_add_mod j hf.width
  have hmain := floodLoop_preserves hf.height hf.width hf.data
    (hf.height * hf.width)
    { filled := hf.data,
      visited := (floodSeeds hf.height hf.width).foldl (fun v i => v.set i true)
        (List.replicate (hf.height * hf.width) false),
      heap := (floodSeeds hf.height hf.width).map (fun i => (hf.data.getD i 0, i)) }
    ⟨rfl, fun k => le_refl _, hedge_seed, fun j _ _ => rfl⟩
  refine ⟨hmain.1, hmain.2.1 (r * hf.width + c), ?_⟩
  intro hedge
  apply hmain.2.2.2 (r * hf.width + c) hjn
  rw [hjdiv, hjmod]
  exact hedge

/-- Witness for the C10 theorem on a concrete 3×3 heightfield with a
central pit. -/
theorem priority_flood_monotone_and_edges_witness :
    (priority_flood ⟨[5, 5, 5, 5, 0, 5, 5, 5, 5], 3, 3, 0, 1, 0, 1⟩).length
        = ([5, 5, 5, 5, 0, 5, 5, 5, 5] : List ℚ).length
    ∧ ([5, 5, 5, 5, 0, 5, 5, 5, 5] : List ℚ).getD (0 * 3 + 1) 0
        ≤ (priority_flood ⟨[5, 5, 5, 5, 0, 5, 5, 5, 5], 3, 3, 0, 1, 0, 1⟩).getD
            (0 * 3 + 1) 0
    ∧ ((0 = 0 ∨ 0 = 3 - 1 ∨ 1 = 0 ∨ 1 = 3 - 1) →
        (priority_flood ⟨[5, 5, 5, 5, 0, 5, 5, 5, 5], 3, 3, 0, 1, 0, 1⟩).getD
            (0 * 3 + 1) 0
          = ([5, 5, 5, 5, 0, 5, 5, 5, 5] : List ℚ).getD (0 * 3 + 1) 0) :=
  priority_flood_monotone_and_edges ⟨[5, 5, 5, 5, 0, 5, 5, 5, 5], 3, 3, 0, 1, 0, 1⟩
    0 1 (by decide) (by decide)


-- ── C4: mass-wasting conservation lemmas ─────────────────────────────────

lemma sum_set_of_lt (l : List ℚ) :
    ∀ (i : ℕ) (x : ℚ), i < l.length →
      (l.set i x).sum = l.sum - l.getD i 0 + x := by
  induction l with
  | nil => intro i x h; simp at h
  | cons y ys ih =>
      intro i x h
      cases i with
      | zero => simp [List.set]; ring
      | succ n =>
          rw [List.set_cons_succ, List.sum_cons, List.sum_cons,
            ih n x (by simpa using h)]
          have : (y :: ys).getD (n + 1) 0 = ys.getD n 0 := rfl
          rw [this]
          ring

lemma D8_OFFSETS_ne_zero : ∀ k, k < 8 → D8_OFFSETS.getD k (0, 0) ≠ (0, 0) := by
  decide

lemma massBestStep_inv (rows cols : ℕ) (cs : ℚ) (hfc : HeightField) (r c : ℕ)
    (z0 : ℚ) (bb : ℚ × Option (ℕ × ℕ × ℚ)) (k : ℕ) (hk : k < 8)
    (hbb : ∀ nr nc d, bb.2 = some (nr, nc, d) →
      nr < rows ∧ nc < cols ∧ ¬(nr = r ∧ nc = c)
        ∧ ∃ k8, k8 < 8 ∧ d = cs * D8_DIST.getD k8 1) :
    ∀ nr nc d, (massBestStep rows cols cs hfc r c z0 bb k).2 = some (nr, nc, d) →
      nr < rows ∧ nc < cols ∧ ¬(nr = r ∧ nc = c)
        ∧ ∃ k8, k8 < 8 ∧ d = cs * D8_DIST.getD k8 1 := by
  intro nr nc d
  unfold massBestStep
  simp only []
  split_ifs with hbound hupd
  · exact hbb nr nc d
  · intro heq
    have hod := D8_OFFSETS_ne_zero k hk
    push_neg at hbound
    obtain ⟨hb1, hb2, hb3, hb4⟩ := hbound
    simp only [Option.some_inj, Prod.mk.injEq] at heq
    obtain ⟨h1, h2, h3⟩ := heq
    subst h1
    subst h2
    subst h3
    refine ⟨by omega, by omega, ?_, k, hk, rfl⟩
    intro hcontra
    obtain ⟨hnr, hnc⟩ := hcontra
    apply hod
    have ho1 : (D8_OFFSETS.getD k (0, 0)).1 = 0 := by omega
    have ho2 : (D8_OFFSETS.getD k (0, 0)).2 = 0 := by omega
    exact Prod.ext ho1 ho2
  · exact hbb nr nc d

lemma index_pair_ne (cols r c nr nc : ℕ) (hc : c < cols) (hnc : nc < cols)
    (hne : ¬(nr = r ∧ nc = c)) : nr * cols + nc ≠ r * cols + c := by
  intro heq
  have h1 : (nr * cols + nc) / cols = nr := by
    rw [Nat.add_comm, Nat.add_mul_div_right nc nr (by omega), Nat.div_eq_of_lt hnc]
    omega
  have h2 : (r * cols + c) / cols = r := by
    rw [Nat.add_comm, Nat.add_mul_div_right c r (by omega), Nat.div_eq_of_lt hc]
    omega
  have h3 : nr = r := by rw [← h1, ← h2, heq]
  have h4 : nc = c := by
    have := heq
    rw [h3] at this
    omega
  exact hne ⟨h3, h4⟩

lemma massWastingCell_conserves (prims : FloatPrims) (rows cols : ℕ)
    (cs tan_repose : ℚ) (hfc : HeightField) (i : ℕ)
    (hw : hfc.width = cols)
    (hlen : hfc.data.length = rows * cols)
    (_hr1 : 1 ≤ i / cols) (hr2 : i / cols < rows - 1)
    (hc1 : 1 ≤ i % cols) (hc2 : i % cols < cols - 1) :
    (massWastingCell prims rows cols cs tan_repose hfc i).data.sum = hfc.data.sum
    ∧ (massWastingCell prims rows cols cs tan_repose hfc i).data.length
        = hfc.data.length
    ∧ (massWastingCell prims rows cols cs tan_repose hfc i).width = hfc.width
    ∧ (massWastingCell prims rows cols cs tan_repose hfc i).height = hfc.height := by
  have hcols : 0 < cols := by omega
  unfold massWastingCell
  simp only []
  split_ifs with hslope
  · exact ⟨rfl, rfl, rfl, rfl⟩
  · have hbest := foldl_preserves_mem
      (fun bb => ∀ nr nc d, bb.2 = some (nr, nc, d) →
        nr < rows ∧ nc < cols ∧ ¬(nr = i / cols ∧ nc = i % cols)
          ∧ ∃ k8, k8 < 8 ∧ d = cs * D8_DIST.getD k8 1)
      (massBestStep rows cols cs hfc (i / cols) (i % cols) (hfc.get (i / cols) (i % cols)))
      (List.range 8)
      (fun bb k hkmem hp =>
        massBestStep_inv rows cols cs hfc (i / cols) (i % cols)
          (hfc.get (i / cols) (i % cols)) bb k (List.mem_range.mp hkmem) hp)
      ((0 : ℚ), none)
      (fun nr nc d h => by simp at h)
    cases hmatch : ((List.range 8).foldl
        (massBestStep rows cols cs hfc (i / cols) (i % cols)
          (hfc.get (i / cols) (i % cols))) ((0 : ℚ), none)).2 with
    | none => exact ⟨rfl, rfl, rfl, rfl⟩
    | some trip =>
        obtain ⟨nr, nc, dist⟩ := trip
        obtain ⟨hnr, hnc, hne, -⟩ := hbest nr nc dist hmatch
        simp only []
        split_ifs with htr
        · -- the double set: indices are distinct and in bounds
          have hi1 : i / cols * hfc.width + i % cols < hfc.data.length := by
            rw [hw, hlen]
            calc i / cols * cols + i % cols
                < i / cols * cols + cols := by omega
              _ = (i / cols + 1) * cols := by ring
              _ ≤ rows * cols := Nat.mul_le_mul_right _ (by omega)
          have hi2 : nr * hfc.width + nc < hfc.data.length := by
            rw [hw, hlen]
            calc nr * cols + nc < nr * cols + cols := by omega
              _ = (nr + 1) * cols := by ring
              _ ≤ rows * cols := Nat.mul_le_mul_right _ (by omega)
          have hne12 : nr * hfc.width + nc ≠ i / cols * hfc.width + i % cols := by
            rw [hw]
            exact index_pair_ne cols (i / cols) (i % cols) nr nc
              (Nat.mod_lt i hcols) (by omega) hne
          refine ⟨?_, ?_, rfl, rfl⟩
          · show ((hfc.data.set (i / cols * hfc.width + i % cols) _).set
                (nr * hfc.width + nc) _).sum = hfc.data.sum
            rw [sum_set_of_lt _ (nr * hfc.width + nc) _
                (by rw [List.length_set]; exact hi2),
              getD_set_ne hfc.data (i / cols * hfc.width + i % cols)
                (nr * hfc.width + nc) _ 0 (Ne.symm hne12),
              sum_set_of_lt _ (i / cols * hfc.width + i % cols) _ hi1]
            unfold HeightField.get
            ring
          · show ((hfc.data.set _ _).set _ _).length = hfc.data.length
            rw [List.length_set, List.length_set]
        · exact ⟨rfl, rfl, rfl, rfl⟩

/-- C4: one pass of mass wasting conserves the total elevation sum exactly
in the real-valued model (each transfer subtracts from the source exactly
what it adds to the neighbour), for every abstract interpretation of the
sqrt and tan primitives, hence in particular for the IEEE one up to
floating-point rounding. -/
theorem mass_wasting_conserves (prims : FloatPrims) (hf : HeightField)
    (angle : ℚ) (hlen : hf.data.length = hf.height * hf.width) :
    (apply_mass_wasting prims hf angle).data.sum = hf.data.sum := by
  unfold apply_mass_wasting
  have hmain := foldl_preserves_mem
    (fun hfc => hfc.data.sum = hf.data.sum
      ∧ hfc.data.length = hf.data.length
      ∧ hfc.width = hf.width
      ∧ hfc.height = hf.height)
    (massWastingCell prims hf.height hf.width (cellsize_m prims hf)
      (prims.tanDeg angle))
    ((massOrder0 hf.height hf.width).mergeSort
      (fun a b => decide (hf.data.getD b 0 ≤ hf.data.getD a 0)))
    ?step hf ⟨rfl, rfl, rfl, rfl⟩
  · exact hmain.1
  · intro hfc i hi hq
    have hi0 : i ∈ massOrder0 hf.height hf.width :=
      (List.mergeSort_perm (massOrder0 hf.height hf.width) _).mem_iff.mp hi
    unfold massOrder0 at hi0
    rw [List.mem_flatMap] at hi0
    obtain ⟨r, hrmem, hcmem⟩ := hi0
    rw [List.mem_map] at hcmem
    obtain ⟨c, hcmem, hic⟩ := hcmem
    rw [List.mem_range'_1] at hrmem hcmem
    have hcols : 0 < hf.width := by omega
    have hdiv : i / hf.width = r := by
      rw [← hic, Nat.add_comm, Nat.add_mul_div_right c r hcols,
        Nat.div_eq_of_lt (by omega)]
      omega
    have hmod : i % hf.width = c := by
      rw [← hic, Nat.add_comm, Nat.add_mul_mod_self_right,
        Nat.mod_eq_of_lt (by omega)]
    have hstep := massWastingCell_conserves prims hf.height hf.width
      (cellsize_m prims hf) (prims.tanDeg angle) hfc i
      (hq.2.2.1) (by rw [hq.2.1, hlen]) (by omega) (by omega) (by omega) (by omega)
    exact ⟨hstep.1.trans hq.1, hstep.2.1.trans hq.2.1,
      hstep.2.2.1.trans hq.2.2.1, hstep.2.2.2.trans hq.2.2.2⟩

/-- Witness for the C4 theorem on a concrete 3×3 heightfield with a steep
central spike (the sum is conserved whatever the transfers do). -/
theorem mass_wasting_conserves_witness :
    (apply_mass_wasting ⟨fun _ => 1, fun _ => 0, fun _ => 1⟩
        ⟨[0, 0, 0, 0, 1000, 0, 0, 0, 0], 3, 3, 0, 1, 0, 1⟩ 30).data.sum
      = ([0, 0, 0, 0, 1000, 0, 0, 0, 0] : List ℚ).sum :=
  mass_wasting_conserves ⟨fun _ => 1, fun _ => 0, fun _ => 1⟩
    ⟨[0, 0, 0, 0, 1000, 0, 0, 0, 0], 3, 3, 0, 1, 0, 1⟩ 30 (by decide)


-- ── C5: single-iteration maximum lemmas ──────────────────────────────────

lemma maxElev_spec (l : List ℚ) (M : ℚ) (h : maxElev l = some M) :
    M ∈ l ∧ ∀ x ∈ l, x ≤ M := by
  cases l with
  | nil => exact absurd h (by rw [show maxElev [] = none from rfl]; simp)
  | cons x xs =>
      have hconv : maxElev (x :: xs) = some (xs.foldl max x) := by
        unfold maxElev
        rw [List.foldl_cons]
        show List.foldl (fun acc v => some (acc.elim v (fun m => max m v)))
          (some x) xs = some (xs.foldl max x)
        exact foldl_optmax_some xs x
      rw [hconv] at h
      have hM : M = xs.foldl max x := (Option.some_inj.mp h).symm
      subst hM
      constructor
      · rcases foldl_max_cases xs x with h2 | h2
        · rw [h2]; exact List.mem_cons_self x xs
        · exact List.mem_cons_of_mem x h2
      · intro y hy
        rcases List.mem_cons.mp hy with rfl | hy2
        · exact foldl_max_ge_acc xs y
        · exact foldl_max_ge_mem xs x y hy2

lemma getD_le_bound (l : List ℚ) (M : ℚ) (hM0 : 0 ≤ M)
    (h : ∀ x ∈ l, x ≤ M) (i : ℕ) : l.getD i 0 ≤ M := by
  rcases Nat.lt_or_ge i l.length with hlt | hge
  · rw [List.getD_eq_getElem?_getD, List.getElem?_eq_getElem hlt]
    exact h _ (List.getElem_mem hlt)
  · rw [List.getD_eq_default _ _ hge]
    exact hM0

lemma mem_set_bound (l : List ℚ) (i : ℕ) (x M : ℚ) (hx : x ≤ M)
    (h : ∀ y ∈ l, y ≤ M) : ∀ y ∈ l.set i x, y ≤ M := fun y hy =>
  (List.mem_or_eq_of_mem_set hy).elim (h y) (fun he => he ▸ hx)

lemma clampQ_delta_nonpos (x : ℚ) : clampQ x (-10) 0 ≤ 0 :=
  max_le (by norm_num) (min_le_right x 0)

lemma cellsize_m_pos (prims : FloatPrims) (hf : HeightField) :
    0 < cellsize_m prims hf := by
  unfold cellsize_m
  simp only []
  split_ifs <;> (try norm_num) <;> (push_neg at *; linarith)

lemma D8_DIST_entry_pos (k : ℕ) : 0 < D8_DIST.getD k 1 := by
  rcases k with _ | _ | _ | _ | _ | _ | _ | _ | n <;>
    norm_num [D8_DIST, sqrt2f64]

lemma except_bind_ok {ε α β : Type} (x : Except ε α) (f : α → Except ε β) (b : β)
    (h : (x >>= f) = Except.ok b) : ∃ a, x = Except.ok a ∧ f a = Except.ok b := by
  cases x with
  | error e => exact absurd h (by simp [Bind.bind, Except.bind])
  | ok a => exact ⟨a, rfl, by simpa [Bind.bind, Except.bind] using h⟩

lemma stream_delta_nonpos (prims : FloatPrims) (hf : HeightField)
    (erod : List ℚ) (uk : Bool) (flow : FlowField) (rowEnd colEnd : ℕ) :
    ∀ x ∈ stream_delta prims hf erod uk flow rowEnd colEnd, x ≤ 0 := by
  unfold stream_delta
  simp only []
  refine foldl_preserves (fun d => ∀ x ∈ d, x ≤ 0) _ ?_ _ _ ?_
  · intro d r hd
    refine foldl_preserves (fun d => ∀ x ∈ d, x ≤ 0) _ ?_ _ d hd
    intro d2 c hd2
    split_ifs <;>
      first
        | exact hd2
        | exact mem_set_bound d2 _ _ 0 (clampQ_delta_nonpos _) hd2
  · intro x hx
    rw [List.eq_of_mem_replicate hx]

lemma erosion_apply_bound (data delta : List ℚ) (M : ℚ) (hM0 : 0 ≤ M)
    (hdata : ∀ x ∈ data, x ≤ M) (hdelta : ∀ x ∈ delta, x ≤ 0) :
    ∀ x ∈ erosion_update data delta, x ≤ M := by
  unfold erosion_update
  refine foldl_preserves (fun dl => ∀ x ∈ dl, x ≤ M) _ ?_ _ data hdata
  intro dl i hdl
  refine mem_set_bound dl i _ M ?_ hdl
  have h1 : dl.getD i 0 ≤ M := getD_le_bound dl M hM0 hdl i
  have h2 : delta.getD i 0 ≤ 0 := getD_le_bound delta 0 (le_refl 0) hdelta i
  exact max_le (by linarith) hM0

lemma massWastingCell_ub (prims : FloatPrims) (rows cols : ℕ)
    (cs tan_repose : ℚ) (hfc : HeightField) (i : ℕ) (M : ℚ)
    (hM0 : 0 ≤ M) (htan : 0 ≤ tan_repose) (hcs : 0 ≤ cs)
    (h : ∀ x ∈ hfc.data, x ≤ M) :
    ∀ x ∈ (massWastingCell prims rows cols cs tan_repose hfc i).data, x ≤ M := by
  unfold massWastingCell
  simp only []
  split_ifs with hslope
  · exact h
  · have hbest := foldl_preserves_mem
      (fun bb => ∀ nr nc d, bb.2 = some (nr, nc, d) →
        nr < rows ∧ nc < cols ∧ ¬(nr = i / cols ∧ nc = i % cols)
          ∧ ∃ k8, k8 < 8 ∧ d = cs * D8_DIST.getD k8 1)
      (massBestStep rows cols cs hfc (i / cols) (i % cols)
        (hfc.get (i / cols) (i % cols)))
      (List.range 8)
      (fun bb k hkmem hp =>
        massBestStep_inv rows cols cs hfc (i / cols) (i % cols)
          (hfc.get (i / cols) (i % cols)) bb k (List.mem_range.mp hkmem) hp)
      ((0 : ℚ), none)
      (fun nr nc d hcontra => by simp at hcontra)
    cases hmatch : ((List.range 8).foldl
        (massBestStep rows cols cs hfc (i / cols) (i % cols)
          (hfc.get (i / cols) (i % cols))) ((0 : ℚ), none)).2 with
    | none => exact h
    | some trip =>
        obtain ⟨nr, nc, dist⟩ := trip
        obtain ⟨-, -, -, k8, hk8, hdist⟩ := hbest nr nc dist hmatch
        have hdist0 : 0 ≤ dist := by
          rw [hdist]
          exact mul_nonneg hcs (le_of_lt (D8_DIST_entry_pos k8))
        simp only []
        split_ifs with htr
        · have hz0 : hfc.get (i / cols) (i % cols) ≤ M := getD_le_bound _ M hM0 h _
          have hz1 : hfc.get nr nc ≤ M := getD_le_bound _ M hM0 h _
          have htand : 0 ≤ tan_repose * dist := mul_nonneg htan hdist0
          refine mem_set_bound _ _ _ M (by linarith) ?_
          refine mem_set_bound _ _ _ M (by linarith) h
        · exact h

lemma apply_mass_wasting_ub (prims : FloatPrims) (hfX : HeightField)
    (angle : ℚ) (M : ℚ) (hM0 : 0 ≤ M) (htan : 0 ≤ prims.tanDeg angle)
    (h : ∀ x ∈ hfX.data, x ≤ M) :
    ∀ x ∈ (apply_mass_wasting prims hfX angle).data, x ≤ M := by
  unfold apply_mass_wasting
  refine foldl_preserves (fun hfc => ∀ x ∈ hfc.data, x ≤ M) _ ?_ _ hfX h
  intro hfc i hfcb
  exact massWastingCell_ub prims hfX.height hfX.width (cellsize_m prims hfX)
    (prims.tanDeg angle) hfc i M hM0 htan
    (le_of_lt (cellsize_m_pos prims hfX)) hfcb

lemma stream_power_iteration_ok (prims : FloatPrims) (hf : HeightField)
    (erod : List ℚ) (uk : Bool) (angle : ℚ) (flow : FlowField)
    (hf1 : HeightField)
    (hrun : stream_power_iteration prims hf erod uk angle flow = Except.ok hf1) :
    ∃ rowEnd colEnd : ℕ, hf1 = apply_mass_wasting prims { hf with
      data := erosion_update hf.data
        (stream_delta prims hf erod uk flow rowEnd colEnd) } angle := by
  unfold stream_power_iteration at hrun
  obtain ⟨rowEnd, h1, hrun2⟩ := except_bind_ok _ _ _ hrun
  by_cases hc : 1 < rowEnd
  · rw [if_pos hc] at hrun2
    obtain ⟨colEnd, h2, hrun3⟩ := except_bind_ok _ _ _ hrun2
    refine ⟨rowEnd, colEnd, ?_⟩
    have := hrun3
    simp only [pure, Except.pure, Except.ok.injEq] at this
    exact this.symm
  · rw [if_neg hc] at hrun2
    obtain ⟨colEnd, h2, hrun3⟩ := except_bind_ok _ _ _ hrun2
    refine ⟨rowEnd, colEnd, ?_⟩
    have := hrun3
    simp only [pure, Except.pure, Except.ok.injEq] at this
    exact this.symm

/-- C5 (amended): for every heightfield whose maximum elevation is
nonnegative, every erodibility field, and every angle of repose whose
tangent is nonnegative, a single iteration of stream-power erosion (the
clipped Δz update, the clamp of all elevations to ≥ 0, followed by the
mass-wasting pass) never increases the global maximum elevation. -/
theorem stream_power_iteration_max_nonincreasing (prims : FloatPrims)
    (hf : HeightField) (erod : List ℚ) (uk : Bool) (angle : ℚ)
    (flow : FlowField) (hf1 : HeightField) (M M2 : ℚ)
    (htan : 0 ≤ prims.tanDeg angle)
    (hM : maxElev hf.data = some M) (hM0 : 0 ≤ M)
    (hrun : stream_power_iteration prims hf erod uk angle flow = Except.ok hf1)
    (hM2 : maxElev hf1.data = some M2) :
    M2 ≤ M := by
  obtain ⟨rowEnd, colEnd, hhf1⟩ := stream_power_iteration_ok
    prims hf erod uk angle flow hf1 hrun
  have hdata : ∀ x ∈ hf.data, x ≤ M := (maxElev_spec hf.data M hM).2
  have hdata1 : ∀ x ∈ erosion_update hf.data
      (stream_delta prims hf erod uk flow rowEnd colEnd), x ≤ M :=
    erosion_apply_bound hf.data _ M hM0 hdata
      (stream_delta_nonpos prims hf erod uk flow rowEnd colEnd)
  have hout : ∀ x ∈ hf1.data, x ≤ M := by
    rw [hhf1]
    exact apply_mass_wasting_ub prims _ angle M hM0 htan hdata1
  exact hout M2 (maxElev_spec hf1.data M2 hM2).1


/-- C5 counterexample: on the 1×1 heightfield with elevation −5, one
stream-power iteration raises the global maximum from −5 to 0: the update
z ↦ max(z + Δz, 0) clamps every elevation to ≥ 0, so a grid whose maximum
is negative has its maximum raised to 0.  The claim as stated quantifies
over every heightfield and is therefore false for negative elevations. -/
theorem stream_power_iteration_can_raise_max :
    stream_power_iteration prims0 ⟨[(-5 : ℚ)], 1, 1, 0, 1, 0, 1⟩ [] true 30
        ⟨[], [0], 1, 1⟩ = Except.ok ⟨[(0 : ℚ)], 1, 1, 0, 1, 0, 1⟩ ∧
    maxElev [(-5 : ℚ)] = some (-5) ∧ maxElev [(0 : ℚ)] = some 0 ∧
    ¬ ((0 : ℚ) ≤ -5) := by
  refine ⟨?_, rfl, rfl, by norm_num⟩
  norm_num [stream_power_iteration, usizeSub, stream_delta, erosion_update,
    apply_mass_wasting, massOrder0, cellsize_m, clampQ, prims0,
    bind, Except.bind, pure, Except.pure, List.range_succ, List.range_zero]

/-- C5 witness: the amended theorem applied to the 1×1 heightfield with
elevation 1. -/
theorem stream_power_iteration_max_nonincreasing_witness :
    (1 : ℚ) ≤ 1 :=
  stream_power_iteration_max_nonincreasing prims0 ⟨[(1 : ℚ)], 1, 1, 0, 1, 0, 1⟩
    [] true 30 ⟨[], [0], 1, 1⟩ ⟨[(1 : ℚ)], 1, 1, 0, 1, 0, 1⟩ 1 1
    (by norm_num [prims0]) rfl (by norm_num)
    (by norm_num [stream_power_iteration, usizeSub, stream_delta,
      erosion_update, apply_mass_wasting, massOrder0, cellsize_m, clampQ,
      prims0, bind, Except.bind, pure, Except.pure, List.range_succ,
      List.range_zero])
    rfl


/-- C1: the hydraulic shaping stage does not satisfy the empty-grid
contract.  For every terrain class (each of which requests at least 10
erosion iterations, so the loop body runs) and every float interpretation,
apply_stream_power on the 0×0 heightfield aborts with the usize underflow
of rows − 1 (stream_power.rs line 84; in a release build the wrapped bound
then panics on the flow.accumulation index) instead of returning an empty
result. -/
theorem apply_stream_power_empty_panics (tc : TerrainClass)
    (prims : FloatPrims) :
    10 ≤ (params_for_class tc).erosion_iters ∧
    apply_stream_power prims ⟨[], 0, 0, 0, 1, 0, 1⟩ []
        (params_for_class tc).erosion_iters
        (params_for_class tc).angle_of_repose_deg
      = Except.error Panic.usizeUnderflow := by
  cases tc <;> exact ⟨by decide, rfl⟩


-- ── C6: basin partition lemmas ───────────────────────────────────────────

lemma sum_set_succ (l : List ℕ) :
    ∀ j, j < l.length → (l.set j (l.getD j 0 + 1)).sum = l.sum + 1 := by
  induction l with
  | nil => intro j h; simp at h
  | cons a t ih =>
      intro j h
      cases j with
      | zero => simp [List.sum_cons]; omega
      | succ k =>
          have hk : k < t.length := by simpa using h
          rw [List.getD_cons_succ, List.set_cons_succ, List.sum_cons,
            List.sum_cons, ih k hk]
          omega

lemma map_getD_range (l : List ℕ) :
    (List.range l.length).map (fun b => l.getD b 0) = l := by
  apply List.ext_getElem
  · simp
  · intro i h1 h2
    simp only [List.getElem_map, List.getElem_range]
    rw [List.getD_eq_getElem?_getD, List.getElem?_eq_getElem h2]
    rfl

lemma basinBFS_pres (donors : List (List ℕ)) (nid k L : ℕ) (hnid : nid < k) :
    ∀ (fuel : ℕ) (queue : List ℕ) (bid : List (Option ℕ)),
      bid.length = L → (∀ x ∈ bid, ∀ b, x = some b → b < k) →
      (basinBFS donors nid fuel queue bid).length = L ∧
        ∀ x ∈ basinBFS donors nid fuel queue bid, ∀ b, x = some b → b < k := by
  intro fuel
  induction fuel with
  | zero => intro queue bid hL hB; exact ⟨hL, hB⟩
  | succ f ih =>
      intro queue bid hL hB
      cases queue with
      | nil => exact ⟨hL, hB⟩
      | cons j rest =>
          simp only [basinBFS]
          have hstep := foldl_preserves
            (fun (p : List (Option ℕ) × List ℕ) => p.1.length = L ∧
              ∀ x ∈ p.1, ∀ b, x = some b → b < k)
            (fun p donor =>
              if p.1.getD donor (some 0) = none then
                (p.1.set donor (some nid), p.2 ++ [donor])
              else p)
            ?_ (donors.getD j []) (bid, rest) ⟨hL, hB⟩
          · exact ih _ _ hstep.1 hstep.2
          · intro p donor hp
            simp only []
            split_ifs with hcase
            · refine ⟨by rw [List.length_set]; exact hp.1, ?_⟩
              intro x hx b hxb
              rcases List.mem_or_eq_of_mem_set hx with hmem | heq
              · exact hp.2 x hmem b hxb
              · rw [heq] at hxb
                rw [Option.some_inj.mp hxb.symm]
                exact hnid
            · exact hp

lemma basinAssign_pres (flow : FlowField) :
    (basinAssign flow).1.length = flow.height * flow.width ∧
    ∀ x ∈ (basinAssign flow).1, ∀ b, x = some b → b < (basinAssign flow).2 := by
  unfold basinAssign
  simp only []
  refine foldl_preserves
    (fun (p : List (Option ℕ) × ℕ) => p.1.length = flow.height * flow.width ∧
      ∀ x ∈ p.1, ∀ b, x = some b → b < p.2)
    _ ?_ _ _ ⟨List.length_replicate _ _, ?_⟩
  · intro p i hp
    split_ifs with ho
    · have hin : (p.1.set i (some p.2)).length = flow.height * flow.width ∧
          ∀ x ∈ p.1.set i (some p.2), ∀ b, x = some b → b < p.2 + 1 := by
        refine ⟨by rw [List.length_set]; exact hp.1, ?_⟩
        intro x hx b hxb
        rcases List.mem_or_eq_of_mem_set hx with hmem | heq
        · exact Nat.lt_succ_of_lt (hp.2 x hmem b hxb)
        · rw [heq] at hxb
          rw [Option.some_inj.mp hxb.symm]
          exact Nat.lt_succ_self _
      exact basinBFS_pres _ p.2 (p.2 + 1) _ (Nat.lt_succ_self _) _ _ _
        hin.1 hin.2
    · exact hp
  · intro x hx b hxb
    rw [List.eq_of_mem_replicate hx] at hxb
    exact Option.noConfusion hxb

lemma basinFixup_length :
    ∀ (l : List (Option ℕ)) (nid : ℕ), (basinFixup l nid).1.length = l.length := by
  intro l
  induction l with
  | nil => intro nid; rfl
  | cons x rest ih =>
      intro nid
      cases x with
      | none => simp [basinFixup, ih]
      | some b => simp [basinFixup, ih]

lemma basinFixup_le :
    ∀ (l : List (Option ℕ)) (nid : ℕ), nid ≤ (basinFixup l nid).2 := by
  intro l
  induction l with
  | nil => intro nid; exact le_refl _
  | cons x rest ih =>
      intro nid
      cases x with
      | none =>
          simp only [basinFixup]
          exact le_trans (Nat.le_succ _) (ih (nid + 1))
      | some b =>
          simp only [basinFixup]
          exact ih nid

lemma basinFixup_bound :
    ∀ (l : List (Option ℕ)) (nid : ℕ),
      (∀ x ∈ l, ∀ b, x = some b → b < nid) →
      ∀ y ∈ (basinFixup l nid).1, y < (basinFixup l nid).2 := by
  intro l
  induction l with
  | nil => intro nid _ y hy; simp [basinFixup] at hy
  | cons x rest ih =>
      intro nid h y hy
      cases x with
      | some b =>
          have hb : b < nid := h (some b) (List.mem_cons_self _ _) b rfl
          simp only [basinFixup] at hy ⊢
          rcases List.mem_cons.mp hy with rfl | hy2
          · exact lt_of_lt_of_le hb (basinFixup_le rest nid)
          · exact ih nid (fun x hx => h x (List.mem_cons_of_mem _ hx)) y hy2
      | none =>
          simp only [basinFixup] at hy ⊢
          rcases List.mem_cons.mp hy with hynid | hy2
          · rw [hynid]
            exact lt_of_lt_of_le (Nat.lt_succ_self nid) (basinFixup_le rest (nid + 1))
          · refine ih (nid + 1) ?_ y hy2
            intro x hx b hxb
            exact Nat.lt_succ_of_lt (h x (List.mem_cons_of_mem _ hx) b hxb)

lemma basinStatsStep_area (prims : FloatPrims) (hf : HeightField)
    (rows cols : ℕ) (cs : ℚ) (basin_id : List ℕ) (st : BasinStats) (i : ℕ) :
    (basinStatsStep prims hf rows cols cs basin_id st i).area
      = st.area.set (basin_id.getD i 0)
          (st.area.getD (basin_id.getD i 0) 0 + 1) := rfl

lemma basinStats_area_fold (prims : FloatPrims) (hf : HeightField)
    (rows cols : ℕ) (cs : ℚ) (basin_id : List ℕ) (num_basins : ℕ)
    (hbound : ∀ x ∈ basin_id, x < num_basins) :
    ∀ (idxs : List ℕ), (∀ i ∈ idxs, i < basin_id.length) →
      ∀ st : BasinStats, st.area.length = num_basins →
        (idxs.foldl (basinStatsStep prims hf rows cols cs basin_id) st).area.length
            = num_basins ∧
        (idxs.foldl (basinStatsStep prims hf rows cols cs basin_id) st).area.sum
            = st.area.sum + idxs.length := by
  intro idxs
  induction idxs with
  | nil => intro _ st hlen; exact ⟨hlen, by simp⟩
  | cons i rest ih =>
      intro h st hlen
      have hi : i < basin_id.length := h i (List.mem_cons_self _ _)
      have hgetD : basin_id.getD i 0 = basin_id.get ⟨i, hi⟩ := by
        rw [List.getD_eq_getElem?_getD, List.getElem?_eq_getElem hi]
        rfl
      have hbid : basin_id.getD i 0 < num_basins := by
        rw [hgetD]
        exact hbound _ (List.get_mem basin_id i hi)
      have hlen1 : (basinStatsStep prims hf rows cols cs basin_id st i).area.length
          = num_basins := by
        rw [basinStatsStep_area, List.length_set]
        exact hlen
      have hsum1 : (basinStatsStep prims hf rows cols cs basin_id st i).area.sum
          = st.area.sum + 1 := by
        rw [basinStatsStep_area]
        exact sum_set_succ st.area _ (by rw [hlen]; exact hbid)
      have hrec := ih (fun j hj => h j (List.mem_cons_of_mem _ hj))
        (basinStatsStep prims hf rows cols cs basin_id st i) hlen1
      constructor
      · rw [List.foldl_cons]
        exact hrec.1
      · rw [List.foldl_cons, hrec.2, hsum1, List.length_cons]
        omega


lemma basinStats_area (prims : FloatPrims) (flow : FlowField)
    (hf : HeightField) (basin_id : List ℕ) (nb : ℕ)
    (hb : ∀ x ∈ basin_id, x < nb)
    (hl : basin_id.length = flow.height * flow.width) :
    (basinStats prims flow hf basin_id nb).area.length = nb ∧
    (basinStats prims flow hf basin_id nb).area.sum
      = flow.height * flow.width := by
  unfold basinStats
  simp only []
  have h := basinStats_area_fold prims hf flow.height flow.width
    (cellsize_m prims hf) basin_id nb hb
    (List.range (flow.height * flow.width))
    (fun i hi => by rw [hl]; exact List.mem_range.mp hi)
    ⟨List.replicate nb none, List.replicate nb none, List.replicate nb (0 : ℚ),
     List.replicate nb (0 : ℕ), List.replicate nb (0 : ℕ),
     List.replicate nb flow.height, List.replicate nb (0 : ℕ),
     List.replicate nb flow.width, List.replicate nb (0 : ℕ),
     List.replicate nb (0 : ℚ), List.replicate nb (0 : ℕ)⟩
    (List.length_replicate _ _)
  refine ⟨h.1, ?_⟩
  rw [h.2]
  simp

/-- C6: basin delineation partitions the grid.  The final basin-id vector
has exactly one entry per cell and every entry is a valid basin index
below next_id; the returned basins carry the ids 0, …, next_id − 1; and
the sum of area_cells over all returned basins equals height·width. -/
theorem delineate_basins_partition (prims : FloatPrims) (flow : FlowField)
    (hf : HeightField) :
    ((delineate_basins prims flow hf).map DrainageBasin.area_cells).sum
        = flow.height * flow.width ∧
    (basinFixup (basinAssign flow).1 (basinAssign flow).2).1.length
        = flow.height * flow.width ∧
    (∀ y ∈ (basinFixup (basinAssign flow).1 (basinAssign flow).2).1,
        y < (basinFixup (basinAssign flow).1 (basinAssign flow).2).2) ∧
    (delineate_basins prims flow hf).map DrainageBasin.id
        = List.range (basinFixup (basinAssign flow).1 (basinAssign flow).2).2 := by
  obtain ⟨hlen0, hbound0⟩ := basinAssign_pres flow
  have hfixlen : (basinFixup (basinAssign flow).1 (basinAssign flow).2).1.length
      = flow.height * flow.width := by
    rw [basinFixup_length]
    exact hlen0
  have hfixbound := basinFixup_bound (basinAssign flow).1 (basinAssign flow).2
    hbound0
  have hSA := basinStats_area prims flow hf
    (basinFixup (basinAssign flow).1 (basinAssign flow).2).1
    (basinFixup (basinAssign flow).1 (basinAssign flow).2).2
    hfixbound hfixlen
  have hmap : (delineate_basins prims flow hf).map DrainageBasin.area_cells
      = (List.range (basinFixup (basinAssign flow).1 (basinAssign flow).2).2).map
          (fun bid => (basinStats prims flow hf
            (basinFixup (basinAssign flow).1 (basinAssign flow).2).1
            (basinFixup (basinAssign flow).1 (basinAssign flow).2).2).area.getD bid 0) := by
    unfold delineate_basins
    simp only []
    rw [List.map_map]
    rfl
  have hmapid : (delineate_basins prims flow hf).map DrainageBasin.id
      = (List.range (basinFixup (basinAssign flow).1 (basinAssign flow).2).2).map
          (fun bid => bid) := by
    unfold delineate_basins
    simp only []
    rw [List.map_map]
    rfl
  refine ⟨?_, hfixlen, hfixbound, ?_⟩
  · rw [hmap]
    have hrange : List.range (basinFixup (basinAssign flow).1 (basinAssign flow).2).2
        = List.range ((basinStats prims flow hf
            (basinFixup (basinAssign flow).1 (basinAssign flow).2).1
            (basinFixup (basinAssign flow).1 (basinAssign flow).2).2).area.length) := by
      rw [hSA.1]
    rw [hrange, map_getD_range]
    exact hSA.2
  · rw [hmapid]
    exact List.map_id' _

end Terra
